import Mathlib

/-!
Shallow embedding of two components of the google-cloud-python repository:

- the Logging GAX wrapper (`src/logging/google/cloud/logging/_gax.py`):
  translation between protocol-buffer messages and JSON-compatible mappings,
  plus the sink/metric wrapper methods and their status-code-to-exception
  translation;
- the Datastore `Entity` class (`src/gcloud/datastore/entity.py`).

Python mappings are modelled as insertion-ordered association lists with
first-match lookup (Python dicts have unique keys, which the well-formedness
predicates record where it matters).  Python scalar values are modelled by the
inductive type `PyVal`; floats and ints are both carried by the `num`
constructor over `Int`, which is adequate here because the code only moves
numbers around and Python equates an int with its float image.  Fallible
Python code is modelled in the `Except PyErr` monad.
-/

/-! ## Python values and dictionaries -/

/-- Model of the Python values that flow through the log-entry translation:
None, str, bool, int/float (one abstract numeric carrier), datetime (epoch
seconds and nanoseconds), list, dict, and an embedded protobuf message object
(as produced for the opaque proto payload). -/
inductive PyVal where
  | none
  | str (s : String)
  | bool (b : Bool)
  | num (n : Int)
  | dt (seconds : Int) (nanos : Int)
  | list (vs : List PyVal)
  | dict (fs : List (String × PyVal))
  | msg (v : PyVal)

/-- First-match lookup in an association list; models `d[k]` / `d.get(k)`. -/
def lookupKey : List (String × α) → String → Option α
  | [], _ => Option.none
  | (k0, v0) :: rest, k => if k0 = k then some v0 else lookupKey rest k

/-- Models the Python `k in d` test. -/
def containsKey (fs : List (String × α)) (k : String) : Bool :=
  (lookupKey fs k).isSome

/-- Models `d[k] = v` on a Python dict: replace in place if the key exists,
append otherwise. -/
def mapInsert : List (String × α) → String → α → List (String × α)
  | [], k, v => [(k, v)]
  | (k0, v0) :: rest, k, v =>
    if k0 = k then (k0, v) :: rest else (k0, v0) :: mapInsert rest k v

/-- Sequence of dict-item assignments, in list order. -/
def insertAll (acc : List (String × α)) (ps : List (String × α)) : List (String × α) :=
  ps.foldl (fun acc p => mapInsert acc p.1 p.2) acc

/-- Keys are pairwise distinct, as in a Python dict. -/
def nodupKeys : List (String × α) → Bool
  | [] => true
  | (k, _) :: rest => !(containsKey rest k) && nodupKeys rest

/-- Errors raised by the translated Python code. -/
inductive PyErr where
  | keyError (key : String)
  | typeError
  | valueError (msg : String)
deriving DecidableEq

/-! ## Python equality

`pyEq` models the Python `==` relation on the values above: dict comparison is
key-set plus per-key value comparison (insertion order is irrelevant), list
comparison is pointwise, and a bool equals its numeric image (True == 1).
Comparing a shadowed duplicate key uses the first binding, which agrees with
Python on every dict-representable list (unique keys). -/

mutual
def pyEq : PyVal → PyVal → Bool
  | .none, .none => true
  | .str a, .str b => a == b
  | .bool a, .bool b => a == b
  | .num a, .num b => a == b
  | .bool a, .num b => (if a then (1 : Int) else 0) == b
  | .num a, .bool b => a == (if b then (1 : Int) else 0)
  | .dt s n, .dt s2 n2 => s == s2 && n == n2
  | .list vs, .list ws => pyEqList vs ws
  | .dict fs, .dict gs => pyEqFields fs gs && gs.all (fun p => containsKey fs p.1)
  | .msg a, .msg b => pyEq a b
  | _, _ => false
termination_by a _ => sizeOf a

def pyEqList : List PyVal → List PyVal → Bool
  | [], [] => true
  | v :: vs, w :: ws => pyEq v w && pyEqList vs ws
  | _, _ => false
termination_by a _ => sizeOf a

def pyEqFields : List (String × PyVal) → List (String × PyVal) → Bool
  | [], _ => true
  | (k, v) :: rest, gs =>
    (match lookupKey gs k with
     | some w => pyEq v w
     | Option.none => false) && pyEqFields rest gs
termination_by a _ => sizeOf a
end

/-! ## The severity enum

`LogSeverity` lives in the generated module `google.logging.type.log_severity_pb2`,
outside this repository.  Modelled from the spec: severity accepts either a
symbolic name or a numeric code and normalizes to the numeric code; the enum
maps the standard names to their codes.  `Value` and `Name` raise `ValueError`
for an unknown name or code, as the protobuf enum wrappers do. -/

/-- Modelled from the spec: the missing generated enum accessor
`LogSeverity.Value`, mapping a symbolic severity name to its numeric code. -/
def logSeverityValue : String → Except PyErr Int
  | "DEFAULT" => .ok 0
  | "DEBUG" => .ok 100
  | "INFO" => .ok 200
  | "NOTICE" => .ok 300
  | "WARNING" => .ok 400
  | "ERROR" => .ok 500
  | "CRITICAL" => .ok 600
  | "ALERT" => .ok 700
  | "EMERGENCY" => .ok 800
  | s => .error (.valueError ("unknown enum label: " ++ s))

/-- Modelled from the spec: the missing generated enum accessor
`LogSeverity.Name`, mapping a numeric severity code back to its symbolic name. -/
def logSeverityName : Int → Except PyErr String
  | 0 => .ok "DEFAULT"
  | 100 => .ok "DEBUG"
  | 200 => .ok "INFO"
  | 300 => .ok "NOTICE"
  | 400 => .ok "WARNING"
  | 500 => .ok "ERROR"
  | 600 => .ok "CRITICAL"
  | 700 => .ok "ALERT"
  | 800 => .ok "EMERGENCY"
  | _ => .error (.valueError "unknown enum value")

/-! ## google.protobuf.Value

A structured `Value` message is a oneof over null, number, string, bool,
struct and list; `unset` is the state in which no variant is populated, in
which case `WhichOneof` returns `None`.  The struct is its field list in map
order; the list is its repeated values. -/

inductive ValuePB where
  | unset
  | nullValue
  | stringValue (s : String)
  | boolValue (b : Bool)
  | numberValue (n : Int)
  | listValue (vs : List ValuePB)
  | structValue (fs : List (String × ValuePB))

/-- Models `value_pb.WhichOneof(kind)`: the name of the populated variant. -/
def ValuePB.whichOneof : ValuePB → Option String
  | .unset => Option.none
  | .nullValue => some "null_value"
  | .stringValue _ => some "string_value"
  | .boolValue _ => some "bool_value"
  | .numberValue _ => some "number_value"
  | .listValue _ => some "list_value"
  | .structValue _ => some "struct_value"

/-! `_value_pb_to_value` dispatches on `WhichOneof`; since the oneof tag
determines the populated constructor, the dispatch is written as a match on
the constructor, with each source arm in source order.  The dispatch falls
through to the `ValueError` arm for every populated tag other than the five it
recognizes; over the actual schema the only such tag is `null_value`.  The
struct arm of the source calls `_struct_pb_to_mapping`, whose body is inlined
here (see `_struct_pb_to_mapping` below) so that the recursion is a single
mutual definition. -/

mutual
def _value_pb_to_value : ValuePB → Except PyErr PyVal
  | .unset => .ok .none
  | .stringValue s => .ok (.str s)
  | .boolValue b => .ok (.bool b)
  | .numberValue n => .ok (.num n)
  | .listValue vs => do
    let elements ← valueListToValues vs
    .ok (.list elements)
  | .structValue fs => do
    let pairs ← structFieldsToValues fs
    .ok (.dict pairs)
  | v => .error (.valueError ("Value protobuf had unknown kind: " ++ ((v.whichOneof).getD "")))
termination_by v => sizeOf v

def valueListToValues : List ValuePB → Except PyErr (List PyVal)
  | [] => .ok []
  | v :: rest => do
    let x ← _value_pb_to_value v
    let xs ← valueListToValues rest
    .ok (x :: xs)
termination_by vs => sizeOf vs

def structFieldsToValues : List (String × ValuePB) → Except PyErr (List (String × PyVal))
  | [] => .ok []
  | (k, v) :: rest => do
    let x ← _value_pb_to_value v
    let xs ← structFieldsToValues rest
    .ok ((k, x) :: xs)
termination_by fs => sizeOf fs
end

/-- Decoder for a struct message: each field decoded by `_value_pb_to_value`,
in field order. -/
def _struct_pb_to_mapping (fs : List (String × ValuePB)) : Except PyErr (List (String × PyVal)) :=
  structFieldsToValues fs

/-! ## Python-to-struct conversion

`entry_pb.json_payload[key] = value` relies on the protobuf `Struct`
item-assignment conversion from Python values to `Value` messages: None
becomes a null value, str/bool/int/float become the corresponding scalar
variants (both int and float map to the double `number_value`), dicts and
lists convert recursively, and any other type raises. -/

mutual
def pyToStructValue : PyVal → Except PyErr ValuePB
  | .none => .ok .nullValue
  | .str s => .ok (.stringValue s)
  | .bool b => .ok (.boolValue b)
  | .num n => .ok (.numberValue n)
  | .list vs => do
    let ws ← pyListToValues vs
    .ok (.listValue ws)
  | .dict fs => do
    let gs ← pyPairsToValues fs
    .ok (.structValue gs)
  | _ => .error .typeError
termination_by v => sizeOf v

def pyListToValues : List PyVal → Except PyErr (List ValuePB)
  | [] => .ok []
  | v :: rest => do
    let w ← pyToStructValue v
    let ws ← pyListToValues rest
    .ok (w :: ws)
termination_by vs => sizeOf vs

def pyPairsToValues : List (String × PyVal) → Except PyErr (List (String × ValuePB))
  | [] => .ok []
  | (k, v) :: rest => do
    let w ← pyToStructValue v
    let ws ← pyPairsToValues rest
    .ok ((k, w) :: ws)
termination_by fs => sizeOf fs
end

/-! Total mirror of `pyToStructValue` on its success domain, used to state the
encoder characterization (off the success domain its output is irrelevant). -/
mutual
def structValOf : PyVal → ValuePB
  | .none => .nullValue
  | .str s => .stringValue s
  | .bool b => .boolValue b
  | .num n => .numberValue n
  | .list vs => .listValue (structValListOf vs)
  | .dict fs => .structValue (structValPairsOf fs)
  | .dt _ _ => .nullValue
  | .msg _ => .nullValue
termination_by v => sizeOf v

def structValListOf : List PyVal → List ValuePB
  | [] => []
  | v :: rest => structValOf v :: structValListOf rest
termination_by vs => sizeOf vs

def structValPairsOf : List (String × PyVal) → List (String × ValuePB)
  | [] => []
  | (k, v) :: rest => (k, structValOf v) :: structValPairsOf rest
termination_by fs => sizeOf fs
end

/-! JSON-like values that round-trip through a struct: strings, bools and
numbers, plus nested lists and dicts of such values with distinct keys.  A
None is excluded because it converts to a null value, which the typed-union
decoder rejects. -/
mutual
def goodJson : PyVal → Bool
  | .str _ => true
  | .bool _ => true
  | .num _ => true
  | .list vs => goodJsonList vs
  | .dict fs => nodupKeys fs && goodJsonPairs fs
  | _ => false
termination_by v => sizeOf v

def goodJsonList : List PyVal → Bool
  | [] => true
  | v :: rest => goodJson v && goodJsonList rest
termination_by vs => sizeOf vs

def goodJsonPairs : List (String × PyVal) → Bool
  | [] => true
  | (_, v) :: rest => goodJson v && goodJsonPairs rest
termination_by fs => sizeOf fs
end

/-! ## The LogEntry message and its neighbours -/

/-- Wire timestamp: seconds and nanoseconds. -/
structure TimestampPB where
  seconds : Int := 0
  nanos : Int := 0
deriving DecidableEq

/-- Modelled from the spec: the missing helper `_datetime_to_pb_timestamp`
from `google.cloud._helpers`, converting a native datetime (represented by its
epoch seconds and nanoseconds) into the wire timestamp representation. -/
def _datetime_to_pb_timestamp (seconds nanos : Int) : TimestampPB :=
  { seconds := seconds, nanos := nanos }

/-- Modelled from the spec: the missing helper `_pb_timestamp_to_rfc3339`
from `google.cloud._helpers`, rendering a wire timestamp as its RFC 3339
string. -/
def _pb_timestamp_to_rfc3339 (t : TimestampPB) : String :=
  toString t.seconds ++ "." ++ toString t.nanos ++ "Z"

/-- Monitored resource message: a type string and a string-to-string label
map (in map order). -/
structure MonitoredResourcePB where
  type : String := ""
  labels : List (String × String) := []

/-- HttpRequest message; integer fields carry sizes and the status code. -/
structure HttpRequestPB where
  request_method : String := ""
  request_url : String := ""
  status : Int := 0
  referer : String := ""
  user_agent : String := ""
  cache_hit : Bool := false
  request_size : Int := 0
  response_size : Int := 0
  remote_ip : String := ""

/-- LogEntryOperation message. -/
structure LogOperationPB where
  producer : String := ""
  id : String := ""
  first : Bool := false
  last : Bool := false

/-- The payload oneof of LogEntry: at most one of text_payload, json_payload
and proto_payload is populated; setting one clears the others.  The json
payload is a struct (field list); the proto payload is an embedded message
whose parsed JSON content we carry opaquely. -/
inductive PayloadPB where
  | unset
  | text (s : String)
  | json (fs : List (String × ValuePB))
  | proto (v : PyVal)

/-- The LogEntry message, restricted to the fields the translation reads and
writes.  Singular submessage fields `http_request` and `operation` carry an
explicit presence bit (`Option`); attribute access on an absent field yields
the default submessage. -/
structure LogEntryPB where
  log_name : String := ""
  resource : MonitoredResourcePB := {}
  severity : Int := 0
  insert_id : String := ""
  timestamp : TimestampPB := {}
  labels : List (String × String) := []
  payload : PayloadPB := .unset
  http_request : Option HttpRequestPB := Option.none
  operation : Option LogOperationPB := Option.none

/-! ## Message-to-mapping direction -/

/-- Source `_mon_resource_pb_to_mapping`: always emits the type; emits the
labels only when the label map is nonempty (truthiness of a map field). -/
def _mon_resource_pb_to_mapping (resource_pb : MonitoredResourcePB) : List (String × PyVal) :=
  [("type", .str resource_pb.type)] ++
    (if resource_pb.labels.isEmpty then []
     else [("labels", .dict (resource_pb.labels.map (fun p => (p.1, PyVal.str p.2))))])

/-- The nine-key httpRequest submapping the decoder emits. -/
def httpRequestMapping (request : HttpRequestPB) : List (String × PyVal) :=
  [("requestMethod", .str request.request_method),
   ("requestUrl", .str request.request_url),
   ("status", .num request.status),
   ("referer", .str request.referer),
   ("userAgent", .str request.user_agent),
   ("cacheHit", .bool request.cache_hit),
   ("requestSize", .num request.request_size),
   ("responseSize", .num request.response_size),
   ("remoteIp", .str request.remote_ip)]

/-- The four-key operation submapping the decoder emits. -/
def operationMapping (operation : LogOperationPB) : List (String × PyVal) :=
  [("producer", .str operation.producer),
   ("id", .str operation.id),
   ("first", .bool operation.first),
   ("last", .bool operation.last)]

/-- Source `_log_entry_pb_to_mapping`.  The first six keys are emitted
unconditionally by the dict literal; the three payload keys are guarded by
`HasField` checks on the payload oneof; the `httpRequest` and `operation`
blocks are guarded by `if entry_pb.http_request:` and `if entry_pb.operation:`,
and since a protobuf message object defines no boolean conversion a singular
message field is always truthy, so both blocks always run, reading the default
submessage when the field is unset. -/
def _log_entry_pb_to_mapping (entry_pb : LogEntryPB) : Except PyErr (List (String × PyVal)) := do
  let severityName ← logSeverityName entry_pb.severity
  let mapping : List (String × PyVal) :=
    [("logName", .str entry_pb.log_name),
     ("resource", .dict (_mon_resource_pb_to_mapping entry_pb.resource)),
     ("severity", .str severityName),
     ("insertId", .str entry_pb.insert_id),
     ("timestamp", .str (_pb_timestamp_to_rfc3339 entry_pb.timestamp)),
     ("labels", .dict (entry_pb.labels.map (fun p => (p.1, PyVal.str p.2))))]
  let mapping ← match entry_pb.payload with
    | .text s => pure (mapping ++ [("textPayload", PyVal.str s)])
    | .json fs => do
      let decoded ← _struct_pb_to_mapping fs
      pure (mapping ++ [("jsonPayload", PyVal.dict decoded)])
    | .proto v => pure (mapping ++ [("protoPayload", PyVal.msg v)])
    | .unset => pure mapping
  let request := entry_pb.http_request.getD {}
  let mapping := mapping ++ [("httpRequest", PyVal.dict (httpRequestMapping request))]
  let operation := entry_pb.operation.getD {}
  pure (mapping ++ [("operation", PyVal.dict (operationMapping operation))])

/-! ## Mapping-to-message direction

The source builds the message with a sequence of key-guarded blocks.  Each
block is a stage function below, composed in source order (the
`optional_scalar_keys` loop is unrolled in its dict-literal order: logName,
insertId, textPayload).  A `setattr` with a value of the wrong Python type
raises, modelled as `typeError`. -/

/-- Stage for a scalar string field of the `optional_scalar_keys` loop. -/
def setStrField (mapping : List (String × PyVal)) (key : String)
    (set : LogEntryPB → String → LogEntryPB) (entry_pb : LogEntryPB) : Except PyErr LogEntryPB :=
  match lookupKey mapping key with
  | Option.none => .ok entry_pb
  | some (.str s) => .ok (set entry_pb s)
  | some _ => .error .typeError

def encodeLogName (mapping : List (String × PyVal)) (e : LogEntryPB) : Except PyErr LogEntryPB :=
  setStrField mapping "logName" (fun e s => { e with log_name := s }) e

def encodeInsertId (mapping : List (String × PyVal)) (e : LogEntryPB) : Except PyErr LogEntryPB :=
  setStrField mapping "insertId" (fun e s => { e with insert_id := s }) e

def encodeTextPayload (mapping : List (String × PyVal)) (e : LogEntryPB) : Except PyErr LogEntryPB :=
  setStrField mapping "textPayload" (fun e s => { e with payload := .text s }) e

/-- Source block `entry_pb.resource.type = mapping[resource][type]`. -/
def encodeResource (mapping : List (String × PyVal)) (e : LogEntryPB) : Except PyErr LogEntryPB :=
  match lookupKey mapping "resource" with
  | Option.none => .ok e
  | some (.dict res) =>
    match lookupKey res "type" with
    | some (.str t) => .ok { e with resource := { e.resource with type := t } }
    | some _ => .error .typeError
    | Option.none => .error (.keyError "type")
  | some _ => .error .typeError

/-- Source severity block: a str goes through `LogSeverity.Value`; any other
value is assigned as the numeric code (a Python bool is an int). -/
def encodeSeverity (mapping : List (String × PyVal)) (e : LogEntryPB) : Except PyErr LogEntryPB :=
  match lookupKey mapping "severity" with
  | Option.none => .ok e
  | some (.str s) =>
    match logSeverityValue s with
    | .ok code => .ok { e with severity := code }
    | .error err => .error err
  | some (.num n) => .ok { e with severity := n }
  | some (.bool b) => .ok { e with severity := if b then 1 else 0 }
  | some _ => .error .typeError

/-- Source timestamp block: `_datetime_to_pb_timestamp` then `CopyFrom`. -/
def encodeTimestamp (mapping : List (String × PyVal)) (e : LogEntryPB) : Except PyErr LogEntryPB :=
  match lookupKey mapping "timestamp" with
  | Option.none => .ok e
  | some (.dt seconds nanos) => .ok { e with timestamp := _datetime_to_pb_timestamp seconds nanos }
  | some _ => .error .typeError

/-- String-valued pairs of a labels dict; a non-str value raises on
assignment into the string map field. -/
def strPairsE : List (String × PyVal) → Except PyErr (List (String × String))
  | [] => .ok []
  | (k, .str s) :: rest => do
    let r ← strPairsE rest
    .ok ((k, s) :: r)
  | _ :: _ => .error .typeError

/-- Source labels block: `entry_pb.labels[key] = value` for each item.  The
loop assigns item by item; since an exception propagates out of the whole
encoder, validating the items first and then inserting them is observably the
same. -/
def encodeLabels (mapping : List (String × PyVal)) (e : LogEntryPB) : Except PyErr LogEntryPB :=
  match lookupKey mapping "labels" with
  | Option.none => .ok e
  | some (.dict fs) => do
    let prs ← strPairsE fs
    .ok { e with labels := insertAll e.labels prs }
  | some _ => .error .typeError

/-- The struct contents the json_payload oneof member currently holds
(accessing the member when the oneof holds another variant yields an empty
struct). -/
def PayloadPB.currentJson : PayloadPB → List (String × ValuePB)
  | .json g => g
  | _ => []

/-- One iteration per item of the source jsonPayload loop:
`entry_pb.json_payload[key] = value` converts the value and stores it into the
struct, which sets the payload oneof to json_payload. -/
def jsonAssignLoop : List (String × PyVal) → LogEntryPB → Except PyErr LogEntryPB
  | [], e => .ok e
  | (k, v) :: rest, e => do
    let vpb ← pyToStructValue v
    jsonAssignLoop rest { e with payload := .json (mapInsert e.payload.currentJson k vpb) }

def encodeJsonPayload (mapping : List (String × PyVal)) (e : LogEntryPB) : Except PyErr LogEntryPB :=
  match lookupKey mapping "jsonPayload" with
  | Option.none => .ok e
  | some (.dict fs) => jsonAssignLoop fs e
  | some _ => .error .typeError

/-- Source protoPayload block: `Parse(json.dumps(...), entry_pb.proto_payload)`
parses the JSON mapping into the embedded message, modelled by storing the
value; parsing sets the payload oneof to proto_payload. -/
def encodeProtoPayload (mapping : List (String × PyVal)) (e : LogEntryPB) : Except PyErr LogEntryPB :=
  match lookupKey mapping "protoPayload" with
  | Option.none => .ok e
  | some v => .ok { e with payload := .proto v }

/-- One key of the `optional_request_keys` loop in
`_http_request_mapping_to_pb`; the Bool records whether any field of the
submessage has been written (which is what marks the parent field present). -/
def hrStep (info : List (String × PyVal)) (key : String)
    (upd : HttpRequestPB → PyVal → Except PyErr HttpRequestPB)
    (acc : HttpRequestPB × Bool) : Except PyErr (HttpRequestPB × Bool) :=
  match lookupKey info key with
  | Option.none => .ok acc
  | some v => do
    let r ← upd acc.1 v
    .ok (r, true)

def hrSetStr (set : HttpRequestPB → String → HttpRequestPB) (r : HttpRequestPB) :
    PyVal → Except PyErr HttpRequestPB
  | .str s => .ok (set r s)
  | _ => .error .typeError

def hrSetInt (set : HttpRequestPB → Int → HttpRequestPB) (r : HttpRequestPB) :
    PyVal → Except PyErr HttpRequestPB
  | .num n => .ok (set r n)
  | .bool b => .ok (set r (if b then 1 else 0))
  | _ => .error .typeError

def hrSetBool (set : HttpRequestPB → Bool → HttpRequestPB) (r : HttpRequestPB) :
    PyVal → Except PyErr HttpRequestPB
  | .bool b => .ok (set r b)
  | _ => .error .typeError

/-- Source `_http_request_mapping_to_pb`: the `optional_request_keys` loop
unrolled in its dict-literal order. -/
def _http_request_mapping_to_pb (info : List (String × PyVal)) (request : HttpRequestPB) :
    Except PyErr (HttpRequestPB × Bool) := do
  let acc := (request, false)
  let acc ← hrStep info "requestMethod" (hrSetStr (fun r s => { r with request_method := s })) acc
  let acc ← hrStep info "requestUrl" (hrSetStr (fun r s => { r with request_url := s })) acc
  let acc ← hrStep info "status" (hrSetInt (fun r n => { r with status := n })) acc
  let acc ← hrStep info "referer" (hrSetStr (fun r s => { r with referer := s })) acc
  let acc ← hrStep info "userAgent" (hrSetStr (fun r s => { r with user_agent := s })) acc
  let acc ← hrStep info "cacheHit" (hrSetBool (fun r b => { r with cache_hit := b })) acc
  let acc ← hrStep info "requestSize" (hrSetInt (fun r n => { r with request_size := n })) acc
  let acc ← hrStep info "responseSize" (hrSetInt (fun r n => { r with response_size := n })) acc
  hrStep info "remoteIp" (hrSetStr (fun r s => { r with remote_ip := s })) acc

def encodeHttpRequest (mapping : List (String × PyVal)) (e : LogEntryPB) : Except PyErr LogEntryPB :=
  match lookupKey mapping "httpRequest" with
  | Option.none => .ok e
  | some (.dict info) => do
    let r ← _http_request_mapping_to_pb info (e.http_request.getD {})
    .ok { e with http_request := if r.2 || e.http_request.isSome then some r.1 else Option.none }
  | some _ => .error .typeError

/-- Source `_log_operation_mapping_to_pb`: producer and id are read
unconditionally (`KeyError` when absent); first and last are optional. -/
def _log_operation_mapping_to_pb (info : List (String × PyVal)) (operation : LogOperationPB) :
    Except PyErr LogOperationPB := do
  let operation ← match lookupKey info "producer" with
    | Option.none => .error (.keyError "producer")
    | some (.str s) => .ok { operation with producer := s }
    | some _ => .error (.typeError : PyErr)
  let operation ← match lookupKey info "id" with
    | Option.none => .error (.keyError "id")
    | some (.str s) => .ok { operation with id := s }
    | some _ => .error (.typeError : PyErr)
  let operation ← match lookupKey info "first" with
    | Option.none => .ok operation
    | some (.bool b) => .ok { operation with first := b }
    | some _ => .error (.typeError : PyErr)
  match lookupKey info "last" with
    | Option.none => .ok operation
    | some (.bool b) => .ok { operation with last := b }
    | some _ => .error (.typeError : PyErr)

def encodeOperation (mapping : List (String × PyVal)) (e : LogEntryPB) : Except PyErr LogEntryPB :=
  match lookupKey mapping "operation" with
  | Option.none => .ok e
  | some (.dict info) => do
    let op ← _log_operation_mapping_to_pb info (e.operation.getD {})
    .ok { e with operation := some op }
  | some _ => .error .typeError

/-- Source `_log_entry_mapping_to_pb`: the key-guarded blocks in source
order, starting from a fresh message. -/
def _log_entry_mapping_to_pb (mapping : List (String × PyVal)) : Except PyErr LogEntryPB := do
  let entry_pb : LogEntryPB := {}
  let entry_pb ← encodeLogName mapping entry_pb
  let entry_pb ← encodeInsertId mapping entry_pb
  let entry_pb ← encodeTextPayload mapping entry_pb
  let entry_pb ← encodeResource mapping entry_pb
  let entry_pb ← encodeSeverity mapping entry_pb
  let entry_pb ← encodeTimestamp mapping entry_pb
  let entry_pb ← encodeLabels mapping entry_pb
  let entry_pb ← encodeJsonPayload mapping entry_pb
  let entry_pb ← encodeProtoPayload mapping entry_pb
  let entry_pb ← encodeHttpRequest mapping entry_pb
  encodeOperation mapping entry_pb

/-! ## Sinks and metrics

The gax transport either returns a value or raises a `GaxError` whose cause
carries a grpc status code; the wrapper inspects `exc_to_code(exc.cause)`.
The transport stubs are modelled as functions from the request the wrapper
builds to such an outcome. -/

/-- The grpc status codes. -/
inductive StatusCode where
  | OK
  | CANCELLED
  | UNKNOWN
  | INVALID_ARGUMENT
  | DEADLINE_EXCEEDED
  | NOT_FOUND
  | ALREADY_EXISTS
  | PERMISSION_DENIED
  | FAILED_PRECONDITION
  | ABORTED
  | INTERNAL
  | UNAVAILABLE
deriving DecidableEq

/-- Outcome of a transport call: a returned value, or a GaxError carrying a
status code. -/
inductive TransportResult (α : Type) where
  | ok (value : α)
  | gaxError (code : StatusCode)

/-- Errors surfaced by the wrapper methods.  Modelled from the spec: the
missing exception classes `Conflict` and `NotFound` of
`google.cloud.exceptions` carry the resource path; a transport error that is
not translated is re-raised unchanged. -/
inductive CloudError where
  | conflict (path : String)
  | notFound (path : String)
  | gax (code : StatusCode)
deriving DecidableEq

/-- LogSink message (name, filter, destination), as built by the wrapper. -/
structure LogSinkPB where
  name : String
  filter : String
  destination : String
deriving DecidableEq

/-- LogMetric message (name, filter, description). -/
structure LogMetricPB where
  name : String
  filter : String
  description : String
deriving DecidableEq

/-- Source `_log_sink_pb_to_mapping`. -/
def _log_sink_pb_to_mapping (sink_pb : LogSinkPB) : List (String × String) :=
  [("name", sink_pb.name), ("destination", sink_pb.destination), ("filter", sink_pb.filter)]

/-- Source `_log_metric_pb_to_mapping`. -/
def _log_metric_pb_to_mapping (metric_pb : LogMetricPB) : List (String × String) :=
  [("name", metric_pb.name), ("description", metric_pb.description), ("filter", metric_pb.filter)]

/-- The config-service stub consumed by `_SinksAPI`, as functions from the
request the wrapper builds to the transport outcome. -/
structure ConfigServiceApi where
  create_sink : String → LogSinkPB → TransportResult Unit
  get_sink : String → TransportResult LogSinkPB
  update_sink : String → LogSinkPB → TransportResult LogSinkPB
  delete_sink : String → TransportResult Unit

/-- The metrics-service stub consumed by `_MetricsAPI`. -/
structure MetricsServiceApi where
  create_log_metric : String → LogMetricPB → TransportResult Unit
  get_log_metric : String → TransportResult LogMetricPB
  update_log_metric : String → LogMetricPB → TransportResult LogMetricPB
  delete_log_metric : String → TransportResult Unit

/-- Source `_SinksAPI.sink_create`: FAILED_PRECONDITION becomes a Conflict on
the sink path; every other transport error is re-raised. -/
def sink_create (api : ConfigServiceApi) (project sink_name filter_ destination : String) :
    Except CloudError Unit :=
  let parent := "projects/" ++ project
  let sink_pb : LogSinkPB := { name := sink_name, filter := filter_, destination := destination }
  match api.create_sink parent sink_pb with
  | .ok _ => .ok ()
  | .gaxError code =>
    if code = StatusCode.FAILED_PRECONDITION then
      .error (.conflict ("projects/" ++ project ++ "/sinks/" ++ sink_name))
    else
      .error (.gax code)

/-- Source `_SinksAPI.sink_get`: NOT_FOUND becomes a NotFound on the sink
path; every other transport error is re-raised. -/
def sink_get (api : ConfigServiceApi) (project sink_name : String) :
    Except CloudError (List (String × String)) :=
  let path := "projects/" ++ project ++ "/sinks/" ++ sink_name
  match api.get_sink path with
  | .ok sink_pb => .ok (_log_sink_pb_to_mapping sink_pb)
  | .gaxError code =>
    if code = StatusCode.NOT_FOUND then .error (.notFound path) else .error (.gax code)

/-- Source `_SinksAPI.sink_update`: on success the returned mapping is built
from the request message the wrapper itself constructed, not from whatever the
transport returned. -/
def sink_update (api : ConfigServiceApi) (project sink_name filter_ destination : String) :
    Except CloudError (List (String × String)) :=
  let path := "projects/" ++ project ++ "/sinks/" ++ sink_name
  let sink_pb : LogSinkPB := { name := path, filter := filter_, destination := destination }
  match api.update_sink path sink_pb with
  | .ok _ => .ok (_log_sink_pb_to_mapping sink_pb)
  | .gaxError code =>
    if code = StatusCode.NOT_FOUND then .error (.notFound path) else .error (.gax code)

/-- Source `_MetricsAPI.metric_update`, same shape as `sink_update`. -/
def metric_update (api : MetricsServiceApi) (project metric_name filter_ description : String) :
    Except CloudError (List (String × String)) :=
  let path := "projects/" ++ project ++ "/metrics/" ++ metric_name
  let metric_pb : LogMetricPB := { name := path, filter := filter_, description := description }
  match api.update_log_metric path metric_pb with
  | .ok _ => .ok (_log_metric_pb_to_mapping metric_pb)
  | .gaxError code =>
    if code = StatusCode.NOT_FOUND then .error (.notFound path) else .error (.gax code)

/-! ## The Datastore Entity -/

/-- Modelled from the spec: the missing `gcloud.datastore.key.Key`, consumed
here only through `dataset_id`, `kind`, `is_partial`, `to_protobuf`,
`completed_key` and `path`; a key is partial while it has no assigned id. -/
structure Key where
  dataset_id : String
  kind : String
  id : Option Int
deriving DecidableEq

/-- The wire form of a key, as produced by `Key.to_protobuf`. -/
structure KeyPB where
  dataset_id : String
  kind : String
  id : Option Int
deriving DecidableEq

/-- Modelled from the spec: `Key.is_partial` holds while no id is assigned. -/
def Key.is_partial (k : Key) : Bool :=
  k.id.isNone

/-- Modelled from the spec: `Key.to_protobuf` renders the key on the wire. -/
def Key.to_protobuf (k : Key) : KeyPB :=
  { dataset_id := k.dataset_id, kind := k.kind, id := k.id }

/-- Modelled from the spec: `Key.completed_key` fills in the assigned id. -/
def Key.completed_key (k : Key) (new_id : Int) : Key :=
  { k with id := some new_id }

/-- The remote calls `Entity.save` can issue, recorded as a trace. -/
inductive DatastoreCall where
  | saveEntity (dataset_id : String) (key_pb : KeyPB)
      (properties : List (String × PyVal)) (exclude : List String)
  | addAutoIdEntity

/-- The connection consumed by `Entity.save`: `save_entity` returns the
`(assigned, new_id)` pair for the request it is given, and `transaction()`
reports whether a transaction is active (the entity is registered with it via
`add_auto_id_entity`, recorded in the call trace). -/
structure Connection where
  save_entity : String → KeyPB → List (String × PyVal) → List String → Bool × Int
  has_transaction : Bool

/-- Source `NoKey` error. -/
inductive SaveError where
  | noKey
deriving DecidableEq

/-- The Entity: an ordered field mapping, an optional key, and the set of
field names excluded from indexing. -/
structure Entity where
  key : Option Key
  props : List (String × PyVal)
  exclude_from_indexes : List String

/-- Source `Entity._must_key`: the key, or `NoKey` when unset. -/
def Entity._must_key (e : Entity) : Except SaveError Key :=
  match e.key with
  | Option.none => .error .noKey
  | some k => .ok k

/-- Source `Entity.save` with an explicit connection (the source defaults the
argument from the implicit environment; which connection is used is irrelevant
to the claims).  Returns the outcome together with the trace of remote calls
in the order they are issued: `save_entity` first, then the transaction
registration when a transaction is active and the key is partial, and finally
the key replacement when the backend reports an assigned id. -/
def Entity.save (e : Entity) (connection : Connection) :
    Except SaveError Entity × List DatastoreCall :=
  match e._must_key with
  | .error err => (.error err, [])
  | .ok key =>
    let r := connection.save_entity key.dataset_id key.to_protobuf e.props e.exclude_from_indexes
    let calls := [DatastoreCall.saveEntity key.dataset_id key.to_protobuf e.props e.exclude_from_indexes]
    let calls := calls ++
      (if connection.has_transaction && key.is_partial then [DatastoreCall.addAutoIdEntity] else [])
    let e2 := if r.1 then { e with key := some (key.completed_key r.2) } else e
    (.ok e2, calls)

/-- Recognizer for the transaction-registration call, used to count
registrations without a decidable equality on traces. -/
def DatastoreCall.isAddAutoId : DatastoreCall → Bool
  | .addAutoIdEntity => true
  | _ => false

/-! ## Pure mirrors of the encoder stages

Each `apply` function is the pure effect of the corresponding key-guarded
encoder block on its well-formed inputs; the characterization lemmas below
show that on such inputs the stage returns exactly this update. -/

def strAt (fs : List (String × PyVal)) (k : String) (dflt : String) : String :=
  match lookupKey fs k with
  | some (.str s) => s
  | _ => dflt

def numAt (fs : List (String × PyVal)) (k : String) (dflt : Int) : Int :=
  match lookupKey fs k with
  | some (.num n) => n
  | _ => dflt

def boolAt (fs : List (String × PyVal)) (k : String) (dflt : Bool) : Bool :=
  match lookupKey fs k with
  | some (.bool b) => b
  | _ => dflt

def excValue (x : Except PyErr Int) (dflt : Int) : Int :=
  match x with
  | .ok v => v
  | .error _ => dflt

def excOk : Except PyErr α → Bool
  | .ok _ => true
  | .error _ => false

def strOfD : PyVal → String
  | .str s => s
  | _ => ""

def strPairsOf : List (String × PyVal) → List (String × String)
  | [] => []
  | (k, v) :: rest => (k, strOfD v) :: strPairsOf rest

def applyLogName (m : List (String × PyVal)) (e : LogEntryPB) : LogEntryPB :=
  match lookupKey m "logName" with
  | some (.str s) => { e with log_name := s }
  | _ => e

def applyInsertId (m : List (String × PyVal)) (e : LogEntryPB) : LogEntryPB :=
  match lookupKey m "insertId" with
  | some (.str s) => { e with insert_id := s }
  | _ => e

def applyTextPayload (m : List (String × PyVal)) (e : LogEntryPB) : LogEntryPB :=
  match lookupKey m "textPayload" with
  | some (.str s) => { e with payload := .text s }
  | _ => e

def applyResource (m : List (String × PyVal)) (e : LogEntryPB) : LogEntryPB :=
  match lookupKey m "resource" with
  | some (.dict res) =>
    match lookupKey res "type" with
    | some (.str t) => { e with resource := { e.resource with type := t } }
    | _ => e
  | _ => e

def applySeverity (m : List (String × PyVal)) (e : LogEntryPB) : LogEntryPB :=
  match lookupKey m "severity" with
  | some (.str s) => { e with severity := excValue (logSeverityValue s) 0 }
  | some (.num n) => { e with severity := n }
  | some (.bool b) => { e with severity := if b then 1 else 0 }
  | _ => e

def applyTimestamp (m : List (String × PyVal)) (e : LogEntryPB) : LogEntryPB :=
  match lookupKey m "timestamp" with
  | some (.dt seconds nanos) => { e with timestamp := _datetime_to_pb_timestamp seconds nanos }
  | _ => e

def applyLabels (m : List (String × PyVal)) (e : LogEntryPB) : LogEntryPB :=
  match lookupKey m "labels" with
  | some (.dict fs) => { e with labels := insertAll e.labels (strPairsOf fs) }
  | _ => e

def applyJson (m : List (String × PyVal)) (e : LogEntryPB) : LogEntryPB :=
  match lookupKey m "jsonPayload" with
  | some (.dict fs) =>
    if fs.isEmpty then e
    else { e with payload := .json (insertAll e.payload.currentJson (structValPairsOf fs)) }
  | _ => e

def applyProto (m : List (String × PyVal)) (e : LogEntryPB) : LogEntryPB :=
  match lookupKey m "protoPayload" with
  | some v => { e with payload := .proto v }
  | _ => e

def httpOf (info : List (String × PyVal)) : HttpRequestPB :=
  { request_method := strAt info "requestMethod" ""
    request_url := strAt info "requestUrl" ""
    status := numAt info "status" 0
    referer := strAt info "referer" ""
    user_agent := strAt info "userAgent" ""
    cache_hit := boolAt info "cacheHit" false
    request_size := numAt info "requestSize" 0
    response_size := numAt info "responseSize" 0
    remote_ip := strAt info "remoteIp" "" }

def applyHttp (m : List (String × PyVal)) (e : LogEntryPB) : LogEntryPB :=
  match lookupKey m "httpRequest" with
  | some (.dict info) => { e with http_request := some (httpOf info) }
  | _ => e

def opOf (info : List (String × PyVal)) : LogOperationPB :=
  { producer := strAt info "producer" ""
    id := strAt info "id" ""
    first := boolAt info "first" false
    last := boolAt info "last" false }

def applyOperation (m : List (String × PyVal)) (e : LogEntryPB) : LogEntryPB :=
  match lookupKey m "operation" with
  | some (.dict info) => { e with operation := some (opOf info) }
  | _ => e

/-- The message the encoder produces on a well-formed input mapping: the
stage effects composed in source order on a fresh message. -/
def pbOf (m : List (String × PyVal)) : LogEntryPB :=
  applyOperation m (applyHttp m (applyProto m (applyJson m (applyLabels m
    (applyTimestamp m (applySeverity m (applyResource m
      (applyTextPayload m (applyInsertId m (applyLogName m {}))))))))))

/-! ## Well-formed input mappings -/

def isStrVal : PyVal → Bool
  | .str _ => true
  | _ => false

def isStrShape : Option PyVal → Bool
  | Option.none => true
  | some (.str _) => true
  | _ => false

def shapeResource : Option PyVal → Bool
  | Option.none => true
  | some (.dict [(k, .str _)]) => k == "type"
  | _ => false

def shapeSeverity : Option PyVal → Bool
  | Option.none => true
  | some (.str s) => excOk (logSeverityValue s)
  | _ => false

def shapeTimestamp : Option PyVal → Bool
  | Option.none => true
  | some (.dt _ _) => true
  | _ => false

def shapeLabels : Option PyVal → Bool
  | Option.none => true
  | some (.dict fs) => nodupKeys fs && fs.all (fun p => isStrVal p.2)
  | _ => false

def shapeJson : Option PyVal → Bool
  | Option.none => true
  | some (.dict fs) => !fs.isEmpty && nodupKeys fs && goodJsonPairs fs
  | _ => false

def presentStr (fs : List (String × PyVal)) (k : String) : Bool :=
  match lookupKey fs k with
  | some (.str _) => true
  | _ => false

def presentNum (fs : List (String × PyVal)) (k : String) : Bool :=
  match lookupKey fs k with
  | some (.num _) => true
  | _ => false

def presentBool (fs : List (String × PyVal)) (k : String) : Bool :=
  match lookupKey fs k with
  | some (.bool _) => true
  | _ => false

def keysAmong (fs : List (String × PyVal)) (allowed : List String) : Bool :=
  fs.all (fun p => allowed.contains p.1)

def httpKeys : List String :=
  ["requestMethod", "requestUrl", "status", "referer", "userAgent",
   "cacheHit", "requestSize", "responseSize", "remoteIp"]

def opKeys : List String :=
  ["producer", "id", "first", "last"]

def shapeHttp : Option PyVal → Bool
  | Option.none => true
  | some (.dict fs) =>
    nodupKeys fs && keysAmong fs httpKeys &&
    presentStr fs "requestMethod" && presentStr fs "requestUrl" && presentNum fs "status" &&
    presentStr fs "referer" && presentStr fs "userAgent" && presentBool fs "cacheHit" &&
    presentNum fs "requestSize" && presentNum fs "responseSize" && presentStr fs "remoteIp"
  | _ => false

def shapeOperation : Option PyVal → Bool
  | Option.none => true
  | some (.dict fs) =>
    nodupKeys fs && keysAmong fs opKeys &&
    presentStr fs "producer" && presentStr fs "id" &&
    presentBool fs "first" && presentBool fs "last"
  | _ => false

/-- The supported top-level keys of the round-trip claim. -/
def entryKeys : List String :=
  ["logName", "resource", "severity", "insertId", "timestamp", "labels",
   "textPayload", "jsonPayload", "httpRequest", "operation"]

/-- Well-formedness of an input mapping for every field except `operation`:
keys drawn from the supported set, unique, each present value of the shape the
encoder consumes without raising, severity a known symbolic name, at most one
payload variant. -/
def wfBase (m : List (String × PyVal)) : Bool :=
  nodupKeys m && keysAmong m entryKeys &&
  isStrShape (lookupKey m "logName") && isStrShape (lookupKey m "insertId") &&
  isStrShape (lookupKey m "textPayload") &&
  shapeResource (lookupKey m "resource") && shapeSeverity (lookupKey m "severity") &&
  shapeTimestamp (lookupKey m "timestamp") && shapeLabels (lookupKey m "labels") &&
  shapeJson (lookupKey m "jsonPayload") && shapeHttp (lookupKey m "httpRequest") &&
  !(containsKey m "textPayload" && containsKey m "jsonPayload")

/-- Well-formedness for the amended round-trip: additionally the operation
submapping, when present, carries all four subkeys (the decoder always emits
all four, so a missing optional subkey cannot round-trip). -/
def wfEntryMapping (m : List (String × PyVal)) : Bool :=
  wfBase m && shapeOperation (lookupKey m "operation")

/-- Round-trip property at one key: whatever value the key holds in the input
mapping, the output mapping holds a Python-equal value at that key. -/
def rtAt (m out : List (String × PyVal)) (k : String) : Prop :=
  ∀ v, lookupKey m k = some v → ∃ w, lookupKey out k = some w ∧ pyEq v w = true

/-! ## Concrete inputs used by counterexamples and witnesses -/

/-- An input whose operation submapping omits the optional first and last. -/
def opOnlyIn : List (String × PyVal) :=
  [("operation", .dict [("producer", .str "worker"), ("id", .str "abc123")])]

/-- The four-key submapping the decoder returns for the input above. -/
def opOnlyOutOperation : PyVal :=
  .dict [("producer", .str "worker"), ("id", .str "abc123"),
         ("first", .bool false), ("last", .bool false)]

/-- An input with a bad severity and an operation submapping missing both
mandatory subkeys. -/
def badSevOpIn : List (String × PyVal) :=
  [("severity", .str "NO_SUCH_NAME"), ("operation", .dict [])]

/-- An operation submapping lacking producer, in an otherwise empty entry. -/
def opNoProducerIn : List (String × PyVal) :=
  [("operation", .dict [("first", .bool true)])]

/-- A well-formed round-trip example exercising most supported keys. -/
def rtExampleIn : List (String × PyVal) :=
  [("logName", .str "projects/proj/logs/syslog"),
   ("severity", .str "WARNING"),
   ("insertId", .str "ins-1"),
   ("resource", .dict [("type", .str "global")]),
   ("labels", .dict [("env", .str "prod"), ("tier", .str "web")]),
   ("textPayload", .str "hello world"),
   ("httpRequest", .dict
     [("status", .num 200), ("requestMethod", .str "GET"),
      ("requestUrl", .str "http://example.com/"), ("referer", .str ""),
      ("userAgent", .str "agent"), ("cacheHit", .bool true),
      ("requestSize", .num 123), ("responseSize", .num 456),
      ("remoteIp", .str "1.2.3.4")]),
   ("operation", .dict
     [("id", .str "op-1"), ("producer", .str "prod.example.com"),
      ("first", .bool true), ("last", .bool false)])]

/-- The mapping the decoder returns for a fresh, fully unpopulated LogEntry
message: every unconditional key is emitted with its default-valued content,
and the httpRequest and operation submappings appear even though both source
fields are unset. -/
def emptyEntryDecoded : List (String × PyVal) :=
  [("logName", .str ""),
   ("resource", .dict [("type", .str "")]),
   ("severity", .str "DEFAULT"),
   ("insertId", .str ""),
   ("timestamp", .str "0.0Z"),
   ("labels", .dict []),
   ("httpRequest", .dict
     [("requestMethod", .str ""), ("requestUrl", .str ""), ("status", .num 0),
      ("referer", .str ""), ("userAgent", .str ""), ("cacheHit", .bool false),
      ("requestSize", .num 0), ("responseSize", .num 0), ("remoteIp", .str "")]),
   ("operation", .dict
     [("producer", .str ""), ("id", .str ""), ("first", .bool false), ("last", .bool false)])]

/-! ## Fixtures for witnesses and counterexamples -/

def keyPartialW : Key := { dataset_id := "ds", kind := "Person", id := Option.none }

def keyCompleteW : Key := { dataset_id := "ds", kind := "Person", id := some 42 }

def entPartialW : Entity :=
  { key := some keyPartialW, props := [("name", .str "JJ")], exclude_from_indexes := ["name"] }

def entNoKeyW : Entity :=
  { key := Option.none, props := [("age", .num 20)], exclude_from_indexes := [] }

def connAssignW : Connection :=
  { save_entity := fun _ _ _ _ => (true, 1234), has_transaction := true }

def connPlainW : Connection :=
  { save_entity := fun _ _ _ _ => (false, 0), has_transaction := false }

/-- A config stub whose create reports FAILED_PRECONDITION, whose get reports
NOT_FOUND, and whose update succeeds with a message unrelated to the request. -/
def apiSinksW : ConfigServiceApi :=
  { create_sink := fun _ _ => .gaxError .FAILED_PRECONDITION
    get_sink := fun _ => .gaxError .NOT_FOUND
    update_sink := fun _ _ => .ok { name := "unrelated", filter := "unrelated", destination := "unrelated" }
    delete_sink := fun _ => .ok () }

/-- A metrics stub whose update succeeds with an unrelated message. -/
def apiMetricsW : MetricsServiceApi :=
  { create_log_metric := fun _ _ => .ok ()
    get_log_metric := fun _ => .gaxError .NOT_FOUND
    update_log_metric := fun _ _ => .ok { name := "unrelated", filter := "unrelated", description := "unrelated" }
    delete_log_metric := fun _ => .ok () }

/-- The message encoded from `opOnlyIn`: only the operation field is set, and
the optional first and last come out as proto defaults. -/
def opOnlyPb : LogEntryPB :=
  { operation := some { producer := "worker", id := "abc123", first := false, last := false } }

/-- The decoded mapping for `opOnlyPb`. -/
def opOnlyDecoded : List (String × PyVal) :=
  [("logName", .str ""),
   ("resource", .dict [("type", .str "")]),
   ("severity", .str "DEFAULT"),
   ("insertId", .str ""),
   ("timestamp", .str "0.0Z"),
   ("labels", .dict []),
   ("httpRequest", .dict
     [("requestMethod", .str ""), ("requestUrl", .str ""), ("status", .num 0),
      ("referer", .str ""), ("userAgent", .str ""), ("cacheHit", .bool false),
      ("requestSize", .num 0), ("responseSize", .num 0), ("remoteIp", .str "")]),
   ("operation", .dict
     [("producer", .str "worker"), ("id", .str "abc123"),
      ("first", .bool false), ("last", .bool false)])]

/-- The six unconditional entries of the decoded mapping, given the severity
name the enum produced. -/
def decodeBase (pb : LogEntryPB) (sname : String) : List (String × PyVal) :=
  [("logName", .str pb.log_name),
   ("resource", .dict (_mon_resource_pb_to_mapping pb.resource)),
   ("severity", .str sname),
   ("insertId", .str pb.insert_id),
   ("timestamp", .str (_pb_timestamp_to_rfc3339 pb.timestamp)),
   ("labels", .dict (pb.labels.map (fun p => (p.1, PyVal.str p.2))))]

/-- The two entries the decoder always appends last. -/
def decodeTail (pb : LogEntryPB) : List (String × PyVal) :=
  [("httpRequest", .dict (httpRequestMapping (pb.http_request.getD {}))),
   ("operation", .dict (operationMapping (pb.operation.getD {})))]

/-! ## General helper lemmas -/

theorem bindOk {ε : Type} {α β : Type} {x : Except ε α} {f : α → Except ε β} {c : β} :
    (x >>= f) = .ok c ↔ ∃ b, x = .ok b ∧ f b = .ok c := by
  cases x <;> simp [Bind.bind, Except.bind]

/-! ## Entity claims -/

/-- C3: for every Entity whose key is None, save raises the NoKey error
synchronously, issues no call on the connection, and leaves the entity
unchanged (no updated entity is produced). -/
theorem claim_C3_save_no_key (e : Entity) (conn : Connection) (h : e.key = Option.none) :
    Entity.save e conn = (.error SaveError.noKey, []) := by
  simp [Entity.save, Entity._must_key, h]

theorem claim_C3_witness :
    Entity.save entNoKeyW connAssignW = (.error SaveError.noKey, []) :=
  claim_C3_save_no_key entNoKeyW connAssignW rfl

/-- C4: for every Entity with a key on which save completes, the entity
afterwards has the original key completed with the assigned id when the
connection reports an assignment, the unchanged key otherwise, and in both
cases the field mapping and the exclude-from-indexes set are unchanged. -/
theorem claim_C4_save_key_frame (e : Entity) (conn : Connection) (k : Key) (h : e.key = some k) :
    ∃ e2, (Entity.save e conn).1 = .ok e2 ∧
      ((conn.save_entity k.dataset_id k.to_protobuf e.props e.exclude_from_indexes).1 = true →
        e2.key = some (k.completed_key
          (conn.save_entity k.dataset_id k.to_protobuf e.props e.exclude_from_indexes).2)) ∧
      ((conn.save_entity k.dataset_id k.to_protobuf e.props e.exclude_from_indexes).1 = false →
        e2.key = e.key) ∧
      e2.props = e.props ∧ e2.exclude_from_indexes = e.exclude_from_indexes := by
  by_cases hb : (conn.save_entity k.dataset_id k.to_protobuf e.props e.exclude_from_indexes).1 = true
  · refine ⟨{ e with key := some (k.completed_key
      (conn.save_entity k.dataset_id k.to_protobuf e.props e.exclude_from_indexes).2) }, ?_, ?_, ?_, rfl, rfl⟩
    · simp [Entity.save, Entity._must_key, h, hb]
    · intro _; rfl
    · intro hf; rw [hb] at hf; cases hf
  · refine ⟨e, ?_, ?_, ?_, rfl, rfl⟩
    · simp [Entity.save, Entity._must_key, h, hb]
    · intro ht; exact absurd ht hb
    · intro _; rw [h]

theorem claim_C4_witness :
    ∃ e2, (Entity.save entPartialW connAssignW).1 = .ok e2 ∧
      ((connAssignW.save_entity keyPartialW.dataset_id keyPartialW.to_protobuf
          entPartialW.props entPartialW.exclude_from_indexes).1 = true →
        e2.key = some (keyPartialW.completed_key
          (connAssignW.save_entity keyPartialW.dataset_id keyPartialW.to_protobuf
            entPartialW.props entPartialW.exclude_from_indexes).2)) ∧
      ((connAssignW.save_entity keyPartialW.dataset_id keyPartialW.to_protobuf
          entPartialW.props entPartialW.exclude_from_indexes).1 = false →
        e2.key = entPartialW.key) ∧
      e2.props = entPartialW.props ∧ e2.exclude_from_indexes = entPartialW.exclude_from_indexes :=
  claim_C4_save_key_frame entPartialW connAssignW keyPartialW rfl

/-- C6: for every Entity with a key, save registers the entity with the
transaction (via add_auto_id_entity) exactly once when the connection reports
an active transaction and the key is partial, and never otherwise. -/
theorem claim_C6_transaction_registration (e : Entity) (conn : Connection) (k : Key)
    (h : e.key = some k) :
    ((Entity.save e conn).2.countP (fun c => c.isAddAutoId)) =
      if conn.has_transaction && k.is_partial then 1 else 0 := by
  have hk : e._must_key = .ok k := by simp [Entity._must_key, h]
  cases hc : conn.has_transaction <;> cases hp : k.is_partial <;>
    simp [Entity.save, hk, hc, hp, List.countP, List.countP.go, DatastoreCall.isAddAutoId]

theorem claim_C6_witness :
    ((Entity.save entPartialW connAssignW).2.countP (fun c => c.isAddAutoId)) =
      if connAssignW.has_transaction && keyPartialW.is_partial then 1 else 0 :=
  claim_C6_transaction_registration entPartialW connAssignW keyPartialW rfl

/-! ## Value-decoder claim -/

/-- C5: decoding a structured Value protobuf whose populated variant tag is
none of string_value, bool_value, number_value, list_value, struct_value
raises a ValueError. -/
theorem claim_C5_unknown_kind (v : ValuePB) (tag : String) (h1 : v.whichOneof = some tag)
    (h2 : tag ∉ ["string_value", "bool_value", "number_value", "list_value", "struct_value"]) :
    ∃ msg, _value_pb_to_value v = .error (.valueError msg) := by
  cases v with
  | unset => simp [ValuePB.whichOneof] at h1
  | nullValue =>
    exact ⟨"Value protobuf had unknown kind: " ++ "null_value",
      by simp [_value_pb_to_value, ValuePB.whichOneof]⟩
  | stringValue s => simp [ValuePB.whichOneof] at h1; subst h1; simp at h2
  | boolValue b => simp [ValuePB.whichOneof] at h1; subst h1; simp at h2
  | numberValue n => simp [ValuePB.whichOneof] at h1; subst h1; simp at h2
  | listValue vs => simp [ValuePB.whichOneof] at h1; subst h1; simp at h2
  | structValue fs => simp [ValuePB.whichOneof] at h1; subst h1; simp at h2

theorem claim_C5_witness :
    ValuePB.whichOneof .nullValue = some "null_value" ∧
    "null_value" ∉ ["string_value", "bool_value", "number_value", "list_value", "struct_value"] ∧
    ∃ msg, _value_pb_to_value .nullValue = .error (.valueError msg) :=
  ⟨rfl, by decide, claim_C5_unknown_kind .nullValue "null_value" rfl (by decide)⟩

/-! ## Sink and metric claims -/

/-- C8: during sink_create a transport error with status FAILED_PRECONDITION
becomes a Conflict carrying exactly projects/PROJECT/sinks/NAME, during
sink_get a transport error with status NOT_FOUND becomes a NotFound carrying
the same path, and in both operations a transport error with any other status
code is re-raised unchanged. -/
theorem claim_C8_sink_errors :
    (∀ (api : ConfigServiceApi) (project name filter_ destination : String),
      api.create_sink ("projects/" ++ project)
          { name := name, filter := filter_, destination := destination } =
        .gaxError .FAILED_PRECONDITION →
      sink_create api project name filter_ destination =
        .error (.conflict ("projects/" ++ project ++ "/sinks/" ++ name))) ∧
    (∀ (api : ConfigServiceApi) (project name filter_ destination : String) (code : StatusCode),
      api.create_sink ("projects/" ++ project)
          { name := name, filter := filter_, destination := destination } = .gaxError code →
      code ≠ .FAILED_PRECONDITION →
      sink_create api project name filter_ destination = .error (.gax code)) ∧
    (∀ (api : ConfigServiceApi) (project name : String),
      api.get_sink ("projects/" ++ project ++ "/sinks/" ++ name) = .gaxError .NOT_FOUND →
      sink_get api project name =
        .error (.notFound ("projects/" ++ project ++ "/sinks/" ++ name))) ∧
    (∀ (api : ConfigServiceApi) (project name : String) (code : StatusCode),
      api.get_sink ("projects/" ++ project ++ "/sinks/" ++ name) = .gaxError code →
      code ≠ .NOT_FOUND →
      sink_get api project name = .error (.gax code)) := by
  refine ⟨?_, ?_, ?_, ?_⟩
  · intro api project name filter_ destination h
    simp [sink_create, h]
  · intro api project name filter_ destination code h hne
    simp [sink_create, h, hne]
  · intro api project name h
    simp [sink_get, h]
  · intro api project name code h hne
    simp [sink_get, h, hne]

theorem claim_C8_witness :
    sink_create apiSinksW "p" "s" "f" "d" = .error (.conflict "projects/p/sinks/s") ∧
    sink_get apiSinksW "p" "s" = .error (.notFound "projects/p/sinks/s") :=
  ⟨claim_C8_sink_errors.1 apiSinksW "p" "s" "f" "d" rfl,
   claim_C8_sink_errors.2.2.1 apiSinksW "p" "s" rfl⟩

/-- C10: after a successful transport call, sink_update and metric_update
return the mapping computed from the request message the wrapper built, whose
name is the full resource path, independent of the message the transport
returned. -/
theorem claim_C10_update_returns_request :
    (∀ (api : ConfigServiceApi) (project name filter_ destination : String) (ret : LogSinkPB),
      api.update_sink ("projects/" ++ project ++ "/sinks/" ++ name)
          { name := "projects/" ++ project ++ "/sinks/" ++ name,
            filter := filter_, destination := destination } = .ok ret →
      sink_update api project name filter_ destination =
        .ok [("name", "projects/" ++ project ++ "/sinks/" ++ name),
             ("destination", destination), ("filter", filter_)]) ∧
    (∀ (api : MetricsServiceApi) (project name filter_ description : String) (ret : LogMetricPB),
      api.update_log_metric ("projects/" ++ project ++ "/metrics/" ++ name)
          { name := "projects/" ++ project ++ "/metrics/" ++ name,
            filter := filter_, description := description } = .ok ret →
      metric_update api project name filter_ description =
        .ok [("name", "projects/" ++ project ++ "/metrics/" ++ name),
             ("description", description), ("filter", filter_)]) := by
  constructor
  · intro api project name filter_ destination ret h
    simp [sink_update, h, _log_sink_pb_to_mapping]
  · intro api project name filter_ description ret h
    simp [metric_update, h, _log_metric_pb_to_mapping]

theorem claim_C10_witness :
    sink_update apiSinksW "p" "s" "f" "d" =
      .ok [("name", "projects/p/sinks/s"), ("destination", "d"), ("filter", "f")] ∧
    metric_update apiMetricsW "p" "m" "f" "desc" =
      .ok [("name", "projects/p/metrics/m"), ("description", "desc"), ("filter", "f")] :=
  ⟨claim_C10_update_returns_request.1 apiSinksW "p" "s" "f" "d"
      { name := "unrelated", filter := "unrelated", destination := "unrelated" } rfl,
   claim_C10_update_returns_request.2 apiMetricsW "p" "m" "f" "desc"
      { name := "unrelated", filter := "unrelated", description := "unrelated" } rfl⟩

/-! ## Severity normalization (C7)

The stages that run after the severity block leave the severity field alone;
these preservation lemmas let the final message severity be read off the
severity block. -/

theorem encodeTimestamp_pres_sev (m : List (String × PyVal)) (e e2 : LogEntryPB)
    (h : encodeTimestamp m e = .ok e2) : e2.severity = e.severity := by
  unfold encodeTimestamp at h
  split at h
  · cases h; rfl
  · cases h; rfl
  · cases h

theorem encodeLabels_pres_sev (m : List (String × PyVal)) (e e2 : LogEntryPB)
    (h : encodeLabels m e = .ok e2) : e2.severity = e.severity := by
  unfold encodeLabels at h
  split at h
  · cases h; rfl
  · rcases bindOk.mp h with ⟨prs, _, h2⟩
    cases h2; rfl
  · cases h

theorem jsonAssignLoop_pres_sev (fs : List (String × PyVal)) :
    ∀ (e e2 : LogEntryPB), jsonAssignLoop fs e = .ok e2 → e2.severity = e.severity := by
  induction fs with
  | nil =>
    intro e e2 h
    unfold jsonAssignLoop at h
    cases h; rfl
  | cons p rest ih =>
    obtain ⟨k, v⟩ := p
    intro e e2 h
    unfold jsonAssignLoop at h
    rcases bindOk.mp h with ⟨vpb, _, h⟩
    have hh := ih _ _ h
    simpa using hh

theorem encodeJsonPayload_pres_sev (m : List (String × PyVal)) (e e2 : LogEntryPB)
    (h : encodeJsonPayload m e = .ok e2) : e2.severity = e.severity := by
  unfold encodeJsonPayload at h
  split at h
  · cases h; rfl
  · exact jsonAssignLoop_pres_sev _ _ _ h
  · cases h

theorem encodeProtoPayload_pres_sev (m : List (String × PyVal)) (e e2 : LogEntryPB)
    (h : encodeProtoPayload m e = .ok e2) : e2.severity = e.severity := by
  unfold encodeProtoPayload at h
  split at h <;> (cases h; rfl)

theorem encodeHttpRequest_pres_sev (m : List (String × PyVal)) (e e2 : LogEntryPB)
    (h : encodeHttpRequest m e = .ok e2) : e2.severity = e.severity := by
  unfold encodeHttpRequest at h
  split at h
  · cases h; rfl
  · rcases bindOk.mp h with ⟨r, _, h2⟩
    cases h2; rfl
  · cases h

theorem encodeOperation_pres_sev (m : List (String × PyVal)) (e e2 : LogEntryPB)
    (h : encodeOperation m e = .ok e2) : e2.severity = e.severity := by
  unfold encodeOperation at h
  split at h
  · cases h; rfl
  · rcases bindOk.mp h with ⟨op, _, h2⟩
    cases h2; rfl
  · cases h

/-- C7: whenever the input mapping carries a severity key, the encoder stores
the numeric code in the message severity field: a symbolic name is converted
through the severity enum, a number is stored as given. -/
theorem claim_C7_severity_normalization :
    (∀ (m : List (String × PyVal)) (s : String) (code : Int) (pb : LogEntryPB),
      lookupKey m "severity" = some (.str s) →
      logSeverityValue s = .ok code →
      _log_entry_mapping_to_pb m = .ok pb →
      pb.severity = code) ∧
    (∀ (m : List (String × PyVal)) (n : Int) (pb : LogEntryPB),
      lookupKey m "severity" = some (.num n) →
      _log_entry_mapping_to_pb m = .ok pb →
      pb.severity = n) := by
  have chain : ∀ (m : List (String × PyVal)) (pb e5 : LogEntryPB),
      encodeTimestamp m e5 >>= (fun e => encodeLabels m e >>=
        (fun e => encodeJsonPayload m e >>= (fun e => encodeProtoPayload m e >>=
          (fun e => encodeHttpRequest m e >>= (fun e => encodeOperation m e))))) = .ok pb →
      pb.severity = e5.severity := by
    intro m pb e5 h
    rcases bindOk.mp h with ⟨e6, h6, h⟩
    rcases bindOk.mp h with ⟨e7, h7, h⟩
    rcases bindOk.mp h with ⟨e8, h8, h⟩
    rcases bindOk.mp h with ⟨e9, h9, h⟩
    rcases bindOk.mp h with ⟨e10, h10, h⟩
    calc pb.severity = e10.severity := encodeOperation_pres_sev m _ _ h
      _ = e9.severity := encodeHttpRequest_pres_sev m _ _ h10
      _ = e8.severity := encodeProtoPayload_pres_sev m _ _ h9
      _ = e7.severity := encodeJsonPayload_pres_sev m _ _ h8
      _ = e6.severity := encodeLabels_pres_sev m _ _ h7
      _ = e5.severity := encodeTimestamp_pres_sev m _ _ h6
  constructor
  · intro m s code pb hl hv henc
    unfold _log_entry_mapping_to_pb at henc
    rcases bindOk.mp henc with ⟨e1, h1, henc⟩
    rcases bindOk.mp henc with ⟨e2, h2, henc⟩
    rcases bindOk.mp henc with ⟨e3, h3, henc⟩
    rcases bindOk.mp henc with ⟨e4, h4, henc⟩
    rcases bindOk.mp henc with ⟨e5, h5, henc⟩
    have hs : e5.severity = code := by
      have h5eq : encodeSeverity m e4 = .ok { e4 with severity := code } := by
        simp [encodeSeverity, hl, hv]
      rw [h5eq] at h5
      cases h5; rfl
    rw [chain m pb e5 henc, hs]
  · intro m n pb hl henc
    unfold _log_entry_mapping_to_pb at henc
    rcases bindOk.mp henc with ⟨e1, h1, henc⟩
    rcases bindOk.mp henc with ⟨e2, h2, henc⟩
    rcases bindOk.mp henc with ⟨e3, h3, henc⟩
    rcases bindOk.mp henc with ⟨e4, h4, henc⟩
    rcases bindOk.mp henc with ⟨e5, h5, henc⟩
    have hs : e5.severity = n := by
      have h5eq : encodeSeverity m e4 = .ok { e4 with severity := n } := by
        simp [encodeSeverity, hl]
      rw [h5eq] at h5
      cases h5; rfl
    rw [chain m pb e5 henc, hs]

theorem claim_C7_witness :
    ({ severity := 500 } : LogEntryPB).severity = 500 ∧
    ({ severity := 250 } : LogEntryPB).severity = 250 :=
  ⟨claim_C7_severity_normalization.1 [("severity", PyVal.str "ERROR")] "ERROR" 500
      { severity := 500 } rfl rfl rfl,
   claim_C7_severity_normalization.2 [("severity", PyVal.num 250)] 250
      { severity := 250 } rfl rfl⟩

/-! ## Association-list lemmas shared by the decoder claims -/

theorem pureOk {ε α : Type} {a b : α} : (pure a : Except ε α) = .ok b ↔ a = b := by
  simp [pure, Except.pure]

theorem okBind {ε α β : Type} (a : α) (f : α → Except ε β) :
    ((pure a : Except ε α) >>= f) = f a := rfl

theorem lookupKey_append (xs ys : List (String × α)) (k : String) :
    lookupKey (xs ++ ys) k =
      match lookupKey xs k with
      | some v => some v
      | Option.none => lookupKey ys k := by
  induction xs with
  | nil => simp [lookupKey]
  | cons p rest ih =>
    obtain ⟨k0, v0⟩ := p
    by_cases hk : k0 = k <;> simp [lookupKey, hk, ih]

theorem containsKey_append (xs ys : List (String × α)) (k : String) :
    containsKey (xs ++ ys) k = (containsKey xs k || containsKey ys k) := by
  rw [containsKey, containsKey, containsKey, lookupKey_append]
  cases lookupKey xs k <;> simp

/-! ## Decoder key-presence claim (C2) -/

/-- C2 counterexample: decoding a fully unpopulated LogEntry message yields a
mapping that contains the logName key (with the default empty string) as well
as the httpRequest and operation keys, although the log_name field is
unpopulated and both submessage fields are unset; the claim that a key whose
source field is unpopulated is absent from the result is therefore false. -/
theorem claim_C2_counterexample :
    _log_entry_pb_to_mapping {} = .ok emptyEntryDecoded ∧
    ({} : LogEntryPB).log_name = "" ∧
    ({} : LogEntryPB).http_request = Option.none ∧
    ({} : LogEntryPB).operation = Option.none ∧
    containsKey emptyEntryDecoded "logName" = true ∧
    containsKey emptyEntryDecoded "httpRequest" = true ∧
    containsKey emptyEntryDecoded "operation" = true :=
  ⟨rfl, rfl, rfl, rfl, rfl, rfl, rfl⟩

/-- C2 amended: the decoder emits logName, resource, severity, insertId,
timestamp and labels unconditionally; it emits textPayload, jsonPayload and
protoPayload exactly when the payload oneof holds that variant (the has-field
checks); and it always emits httpRequest and operation, because the guarding
truthiness test on a singular message field is always true (message objects
define no boolean conversion), reading defaults when the field is unset. -/
theorem claim_C2_amended (pb : LogEntryPB) (out : List (String × PyVal))
    (h : _log_entry_pb_to_mapping pb = .ok out) :
    containsKey out "logName" = true ∧
    containsKey out "resource" = true ∧
    containsKey out "severity" = true ∧
    containsKey out "insertId" = true ∧
    containsKey out "timestamp" = true ∧
    containsKey out "labels" = true ∧
    containsKey out "httpRequest" = true ∧
    containsKey out "operation" = true ∧
    (containsKey out "textPayload" = true ↔ ∃ s, pb.payload = .text s) ∧
    (containsKey out "jsonPayload" = true ↔ ∃ fs, pb.payload = .json fs) ∧
    (containsKey out "protoPayload" = true ↔ ∃ v, pb.payload = .proto v) := by
  unfold _log_entry_pb_to_mapping at h
  rcases bindOk.mp h with ⟨sname, _, h⟩
  cases hp : pb.payload <;> rw [hp] at h
  case unset =>
    simp only [okBind, pureOk] at h
    subst h
    simp [containsKey_append, containsKey, lookupKey, hp]
  case text s =>
    simp only [okBind, pureOk] at h
    subst h
    simp [containsKey_append, containsKey, lookupKey, hp]
  case json fs =>
    rcases bindOk.mp h with ⟨dec, hdec, h⟩
    simp only [okBind, pureOk] at h
    subst h
    simp [containsKey_append, containsKey, lookupKey, hp]
  case proto v =>
    simp only [okBind, pureOk] at h
    subst h
    simp [containsKey_append, containsKey, lookupKey, hp]

theorem claim_C2_amended_witness :
    containsKey emptyEntryDecoded "logName" = true ∧
    containsKey emptyEntryDecoded "resource" = true ∧
    containsKey emptyEntryDecoded "severity" = true ∧
    containsKey emptyEntryDecoded "insertId" = true ∧
    containsKey emptyEntryDecoded "timestamp" = true ∧
    containsKey emptyEntryDecoded "labels" = true ∧
    containsKey emptyEntryDecoded "httpRequest" = true ∧
    containsKey emptyEntryDecoded "operation" = true ∧
    (containsKey emptyEntryDecoded "textPayload" = true ↔ ∃ s, ({} : LogEntryPB).payload = .text s) ∧
    (containsKey emptyEntryDecoded "jsonPayload" = true ↔ ∃ fs, ({} : LogEntryPB).payload = .json fs) ∧
    (containsKey emptyEntryDecoded "protoPayload" = true ↔ ∃ v, ({} : LogEntryPB).payload = .proto v) :=
  claim_C2_amended {} emptyEntryDecoded rfl

/-! ## Struct round trip

For JSON-like values the struct conversion succeeds and the typed-union
decoder inverts it.  The proof is a strong induction on the size of the value,
with inner inductions over the element lists. -/

theorem okBindOk {ε α β : Type} (a : α) (f : α → Except ε β) :
    ((Except.ok a : Except ε α) >>= f) = f a := rfl

theorem structRT_main : ∀ (n : Nat) (v : PyVal), sizeOf v ≤ n → goodJson v = true →
    pyToStructValue v = .ok (structValOf v) ∧ _value_pb_to_value (structValOf v) = .ok v := by
  intro n
  induction n with
  | zero =>
    intro v hv hg
    exfalso
    cases v <;> simp at hv
  | succ n ih =>
    intro v hv hg
    have hlist : ∀ (ws : List PyVal), (∀ a ∈ ws, sizeOf a ≤ n) → goodJsonList ws = true →
        pyListToValues ws = .ok (structValListOf ws) ∧
        valueListToValues (structValListOf ws) = .ok ws := by
      intro ws
      induction ws with
      | nil =>
        intro _ _
        constructor <;> simp [pyListToValues, structValListOf, valueListToValues]
      | cons a rest ih2 =>
        intro hb hg2
        have hga : goodJson a = true ∧ goodJsonList rest = true := by
          simpa [goodJsonList, Bool.and_eq_true] using hg2
        have ha := ih a (hb a (List.mem_cons_self a rest)) hga.1
        have hr := ih2 (fun b hbm => hb b (List.mem_cons_of_mem a hbm)) hga.2
        constructor
        · simp [pyListToValues, structValListOf, ha.1, hr.1, okBindOk]
        · simp [structValListOf, valueListToValues, ha.2, hr.2, okBindOk]
    have hpairs : ∀ (ps : List (String × PyVal)), (∀ p ∈ ps, sizeOf p.2 ≤ n) →
        goodJsonPairs ps = true →
        pyPairsToValues ps = .ok (structValPairsOf ps) ∧
        structFieldsToValues (structValPairsOf ps) = .ok ps := by
      intro ps
      induction ps with
      | nil =>
        intro _ _
        constructor <;> simp [pyPairsToValues, structValPairsOf, structFieldsToValues]
      | cons p rest ih2 =>
        obtain ⟨k, a⟩ := p
        intro hb hg2
        have hga : goodJson a = true ∧ goodJsonPairs rest = true := by
          simpa [goodJsonPairs, Bool.and_eq_true] using hg2
        have ha := ih a (hb (k, a) (List.mem_cons_self _ _)) hga.1
        have hr := ih2 (fun q hq => hb q (List.mem_cons_of_mem _ hq)) hga.2
        constructor
        · simp [pyPairsToValues, structValPairsOf, ha.1, hr.1, okBindOk]
        · simp [structValPairsOf, structFieldsToValues, ha.2, hr.2, okBindOk]
    cases v with
    | str s => constructor <;> simp [pyToStructValue, structValOf, _value_pb_to_value]
    | bool b => constructor <;> simp [pyToStructValue, structValOf, _value_pb_to_value]
    | num x => constructor <;> simp [pyToStructValue, structValOf, _value_pb_to_value]
    | list vs =>
      have hbound : ∀ a ∈ vs, sizeOf a ≤ n := by
        intro a ha
        have h1 : sizeOf a < sizeOf vs := List.sizeOf_lt_of_mem ha
        simp at hv
        omega
      have hg2 : goodJsonList vs = true := by simpa [goodJson] using hg
      have hl := hlist vs hbound hg2
      constructor
      · simp [pyToStructValue, structValOf, hl.1, okBindOk]
      · simp [structValOf, _value_pb_to_value, hl.2, okBindOk]
    | dict fs =>
      have hbound : ∀ p ∈ fs, sizeOf p.2 ≤ n := by
        intro p hp
        have h1 : sizeOf p < sizeOf fs := List.sizeOf_lt_of_mem hp
        obtain ⟨k, a⟩ := p
        simp at hv h1 ⊢
        omega
      have hg2 : goodJsonPairs fs = true := by
        have := by simpa [goodJson, Bool.and_eq_true] using hg
        exact this.2
      have hp := hpairs fs hbound hg2
      constructor
      · simp [pyToStructValue, structValOf, hp.1, okBindOk]
      · simp [structValOf, _value_pb_to_value, hp.2, okBindOk]
    | none => simp [goodJson] at hg
    | dt s2 n2 => simp [goodJson] at hg
    | msg w => simp [goodJson] at hg

theorem pyToStructValue_good (v : PyVal) (h : goodJson v = true) :
    pyToStructValue v = .ok (structValOf v) :=
  (structRT_main (sizeOf v) v le_rfl h).1

theorem value_decode_good (v : PyVal) (h : goodJson v = true) :
    _value_pb_to_value (structValOf v) = .ok v :=
  (structRT_main (sizeOf v) v le_rfl h).2

theorem structFields_rt (fs : List (String × PyVal)) (h : goodJsonPairs fs = true) :
    structFieldsToValues (structValPairsOf fs) = .ok fs := by
  induction fs with
  | nil => simp [structValPairsOf, structFieldsToValues]
  | cons p rest ih =>
    obtain ⟨k, a⟩ := p
    have hga : goodJson a = true ∧ goodJsonPairs rest = true := by
      simpa [goodJsonPairs, Bool.and_eq_true] using h
    simp [structValPairsOf, structFieldsToValues, value_decode_good a hga.1, ih hga.2, okBindOk]

/-! ## Stage characterizations

On a well-formed input each key-guarded encoder block succeeds and performs
exactly the update recorded by its pure mirror. -/

theorem encodeLogName_char (m : List (String × PyVal))
    (hs : isStrShape (lookupKey m "logName") = true) :
    ∀ e, encodeLogName m e = .ok (applyLogName m e) := by
  intro e
  cases hl : lookupKey m "logName" with
  | none => simp [encodeLogName, setStrField, applyLogName, hl]
  | some v =>
    rw [hl] at hs
    cases v <;> simp_all [isStrShape, encodeLogName, setStrField, applyLogName, hl]

theorem encodeInsertId_char (m : List (String × PyVal))
    (hs : isStrShape (lookupKey m "insertId") = true) :
    ∀ e, encodeInsertId m e = .ok (applyInsertId m e) := by
  intro e
  cases hl : lookupKey m "insertId" with
  | none => simp [encodeInsertId, setStrField, applyInsertId, hl]
  | some v =>
    rw [hl] at hs
    cases v <;> simp_all [isStrShape, encodeInsertId, setStrField, applyInsertId, hl]

theorem encodeTextPayload_char (m : List (String × PyVal))
    (hs : isStrShape (lookupKey m "textPayload") = true) :
    ∀ e, encodeTextPayload m e = .ok (applyTextPayload m e) := by
  intro e
  cases hl : lookupKey m "textPayload" with
  | none => simp [encodeTextPayload, setStrField, applyTextPayload, hl]
  | some v =>
    rw [hl] at hs
    cases v <;> simp_all [isStrShape, encodeTextPayload, setStrField, applyTextPayload, hl]

theorem encodeResource_char (m : List (String × PyVal))
    (hs : shapeResource (lookupKey m "resource") = true) :
    ∀ e, encodeResource m e = .ok (applyResource m e) := by
  intro e
  cases hl : lookupKey m "resource" with
  | none => simp [encodeResource, applyResource, hl]
  | some v =>
    rw [hl] at hs
    cases v <;> try simp [shapeResource] at hs
    case dict res =>
      cases res with
      | nil => simp [shapeResource] at hs
      | cons p rest =>
        obtain ⟨k, v2⟩ := p
        cases rest with
        | cons q qrest => cases v2 <;> simp [shapeResource] at hs
        | nil =>
          cases v2 <;> try simp [shapeResource] at hs
          case str t =>
            have hk : k = "type" := by simpa [shapeResource] using hs
            subst hk
            simp [encodeResource, applyResource, hl, lookupKey]

theorem encodeSeverity_char (m : List (String × PyVal))
    (hs : shapeSeverity (lookupKey m "severity") = true) :
    ∀ e, encodeSeverity m e = .ok (applySeverity m e) := by
  intro e
  cases hl : lookupKey m "severity" with
  | none => simp [encodeSeverity, applySeverity, hl]
  | some v =>
    rw [hl] at hs
    cases v <;> try simp [shapeSeverity] at hs
    case str s =>
      cases hv : logSeverityValue s with
      | ok code => simp [encodeSeverity, applySeverity, hl, hv, excValue]
      | error err => simp [shapeSeverity, hv, excOk] at hs

theorem encodeTimestamp_char (m : List (String × PyVal))
    (hs : shapeTimestamp (lookupKey m "timestamp") = true) :
    ∀ e, encodeTimestamp m e = .ok (applyTimestamp m e) := by
  intro e
  cases hl : lookupKey m "timestamp" with
  | none => simp [encodeTimestamp, applyTimestamp, hl]
  | some v =>
    rw [hl] at hs
    cases v <;> simp_all [shapeTimestamp, encodeTimestamp, applyTimestamp, hl]

theorem strPairsE_ok (fs : List (String × PyVal)) (h : fs.all (fun p => isStrVal p.2) = true) :
    strPairsE fs = .ok (strPairsOf fs) := by
  induction fs with
  | nil => simp [strPairsE, strPairsOf]
  | cons p rest ih =>
    obtain ⟨k, v⟩ := p
    have h2 : isStrVal v = true ∧ rest.all (fun p => isStrVal p.2) = true := by
      simpa [List.all_cons, Bool.and_eq_true] using h
    cases v <;> simp_all [isStrVal, strPairsE, strPairsOf, strOfD, ih h2.2, okBindOk]

theorem encodeLabels_char (m : List (String × PyVal))
    (hs : shapeLabels (lookupKey m "labels") = true) :
    ∀ e, encodeLabels m e = .ok (applyLabels m e) := by
  intro e
  cases hl : lookupKey m "labels" with
  | none => simp [encodeLabels, applyLabels, hl]
  | some v =>
    rw [hl] at hs
    cases v <;> try simp [shapeLabels] at hs
    case dict fs =>
      have h2 : nodupKeys fs = true ∧ fs.all (fun p => isStrVal p.2) = true := by
        simpa [shapeLabels, Bool.and_eq_true] using hs
      simp [encodeLabels, applyLabels, hl, strPairsE_ok fs h2.2, okBindOk]

theorem jsonAssignLoop_cons (fs : List (String × PyVal)) :
    goodJsonPairs fs = true → fs ≠ [] →
    ∀ e, jsonAssignLoop fs e =
      .ok { e with payload := .json (insertAll e.payload.currentJson (structValPairsOf fs)) } := by
  induction fs with
  | nil => intro _ hne; cases hne rfl
  | cons p rest ih =>
    obtain ⟨k, v⟩ := p
    intro hg _ e
    have h2 : goodJson v = true ∧ goodJsonPairs rest = true := by
      simpa [goodJsonPairs, Bool.and_eq_true] using hg
    have hconv := pyToStructValue_good v h2.1
    cases rest with
    | nil => simp [jsonAssignLoop, hconv, structValPairsOf, insertAll, okBindOk]
    | cons q qs =>
      have step : jsonAssignLoop ((k, v) :: q :: qs) e =
          (pyToStructValue v >>= fun vpb =>
            jsonAssignLoop (q :: qs)
              { e with payload := .json (mapInsert e.payload.currentJson k vpb) }) := rfl
      rw [step]
      simp only [hconv, okBindOk]
      rw [ih h2.2 (by simp)]
      simp [PayloadPB.currentJson, insertAll, structValPairsOf]

theorem encodeJsonPayload_char (m : List (String × PyVal))
    (hs : shapeJson (lookupKey m "jsonPayload") = true) :
    ∀ e, encodeJsonPayload m e = .ok (applyJson m e) := by
  intro e
  cases hl : lookupKey m "jsonPayload" with
  | none => simp [encodeJsonPayload, applyJson, hl]
  | some v =>
    rw [hl] at hs
    cases v <;> try simp [shapeJson] at hs
    case dict fs =>
      have h2 : fs.isEmpty = false ∧ nodupKeys fs = true ∧ goodJsonPairs fs = true := by
        simpa [shapeJson, Bool.and_eq_true, and_assoc] using hs
      have hne : fs ≠ [] := by cases fs <;> simp_all
      have hloop := jsonAssignLoop_cons fs h2.2.2 hne e
      simp [encodeJsonPayload, hl, hloop, applyJson, h2.1]

theorem encodeProtoPayload_char (m : List (String × PyVal))
    (hl : lookupKey m "protoPayload" = Option.none) :
    ∀ e, encodeProtoPayload m e = .ok (applyProto m e) := by
  intro e
  simp [encodeProtoPayload, applyProto, hl]

theorem presentStr_inv (fs : List (String × PyVal)) (k : String) (h : presentStr fs k = true) :
    lookupKey fs k = some (.str (strAt fs k "")) := by
  unfold presentStr at h
  split at h <;> simp_all [strAt]

theorem presentNum_inv (fs : List (String × PyVal)) (k : String) (h : presentNum fs k = true) :
    lookupKey fs k = some (.num (numAt fs k 0)) := by
  unfold presentNum at h
  split at h <;> simp_all [numAt]

theorem presentBool_inv (fs : List (String × PyVal)) (k : String) (h : presentBool fs k = true) :
    lookupKey fs k = some (.bool (boolAt fs k false)) := by
  unfold presentBool at h
  split at h <;> simp_all [boolAt]

theorem hrStep_str (info : List (String × PyVal)) (k : String)
    (set : HttpRequestPB → String → HttpRequestPB) (acc : HttpRequestPB × Bool)
    (h : presentStr info k = true) :
    hrStep info k (hrSetStr set) acc = .ok (set acc.1 (strAt info k ""), true) := by
  simp [hrStep, presentStr_inv info k h, hrSetStr, okBindOk]

theorem hrStep_int (info : List (String × PyVal)) (k : String)
    (set : HttpRequestPB → Int → HttpRequestPB) (acc : HttpRequestPB × Bool)
    (h : presentNum info k = true) :
    hrStep info k (hrSetInt set) acc = .ok (set acc.1 (numAt info k 0), true) := by
  simp [hrStep, presentNum_inv info k h, hrSetInt, okBindOk]

theorem hrStep_bool (info : List (String × PyVal)) (k : String)
    (set : HttpRequestPB → Bool → HttpRequestPB) (acc : HttpRequestPB × Bool)
    (h : presentBool info k = true) :
    hrStep info k (hrSetBool set) acc = .ok (set acc.1 (boolAt info k false), true) := by
  simp [hrStep, presentBool_inv info k h, hrSetBool, okBindOk]

theorem http_mapping_char (info : List (String × PyVal)) (r : HttpRequestPB)
    (h1 : presentStr info "requestMethod" = true) (h2 : presentStr info "requestUrl" = true)
    (h3 : presentNum info "status" = true) (h4 : presentStr info "referer" = true)
    (h5 : presentStr info "userAgent" = true) (h6 : presentBool info "cacheHit" = true)
    (h7 : presentNum info "requestSize" = true) (h8 : presentNum info "responseSize" = true)
    (h9 : presentStr info "remoteIp" = true) :
    _http_request_mapping_to_pb info r = .ok (httpOf info, true) := by
  simp only [_http_request_mapping_to_pb,
    hrStep_str info "requestMethod" _ _ h1, okBindOk,
    hrStep_str info "requestUrl" _ _ h2,
    hrStep_int info "status" _ _ h3,
    hrStep_str info "referer" _ _ h4,
    hrStep_str info "userAgent" _ _ h5,
    hrStep_bool info "cacheHit" _ _ h6,
    hrStep_int info "requestSize" _ _ h7,
    hrStep_int info "responseSize" _ _ h8,
    hrStep_str info "remoteIp" _ _ h9]
  rfl

theorem encodeHttpRequest_char (m : List (String × PyVal))
    (hs : shapeHttp (lookupKey m "httpRequest") = true) :
    ∀ e, encodeHttpRequest m e = .ok (applyHttp m e) := by
  intro e
  cases hl : lookupKey m "httpRequest" with
  | none => simp [encodeHttpRequest, applyHttp, hl]
  | some v =>
    rw [hl] at hs
    cases v <;> try simp [shapeHttp] at hs
    case dict info =>
      have hf : nodupKeys info = true ∧ keysAmong info httpKeys = true ∧
          presentStr info "requestMethod" = true ∧ presentStr info "requestUrl" = true ∧
          presentNum info "status" = true ∧ presentStr info "referer" = true ∧
          presentStr info "userAgent" = true ∧ presentBool info "cacheHit" = true ∧
          presentNum info "requestSize" = true ∧ presentNum info "responseSize" = true ∧
          presentStr info "remoteIp" = true := by
        simpa [shapeHttp, Bool.and_eq_true, and_assoc] using hs
      obtain ⟨-, -, h1, h2, h3, h4, h5, h6, h7, h8, h9⟩ := hf
      have hmain := http_mapping_char info (e.http_request.getD {}) h1 h2 h3 h4 h5 h6 h7 h8 h9
      simp [encodeHttpRequest, hl, hmain, applyHttp, okBindOk]

theorem op_mapping_char (info : List (String × PyVal)) (op0 : LogOperationPB)
    (h1 : presentStr info "producer" = true) (h2 : presentStr info "id" = true)
    (h3 : presentBool info "first" = true) (h4 : presentBool info "last" = true) :
    _log_operation_mapping_to_pb info op0 = .ok (opOf info) := by
  simp only [_log_operation_mapping_to_pb,
    presentStr_inv info "producer" h1, presentStr_inv info "id" h2,
    presentBool_inv info "first" h3, presentBool_inv info "last" h4, okBindOk]
  rfl

theorem encodeOperation_char (m : List (String × PyVal))
    (hs : shapeOperation (lookupKey m "operation") = true) :
    ∀ e, encodeOperation m e = .ok (applyOperation m e) := by
  intro e
  cases hl : lookupKey m "operation" with
  | none => simp [encodeOperation, applyOperation, hl]
  | some v =>
    rw [hl] at hs
    cases v <;> try simp [shapeOperation] at hs
    case dict info =>
      have hf : nodupKeys info = true ∧ keysAmong info opKeys = true ∧
          presentStr info "producer" = true ∧ presentStr info "id" = true ∧
          presentBool info "first" = true ∧ presentBool info "last" = true := by
        simpa [shapeOperation, Bool.and_eq_true, and_assoc] using hs
      obtain ⟨-, -, h1, h2, h3, h4⟩ := hf
      have hmain := op_mapping_char info (e.operation.getD {}) h1 h2 h3 h4
      simp [encodeOperation, hl, hmain, applyOperation, okBindOk]

theorem errBind {ε α β : Type} (err : ε) (f : α → Except ε β) :
    ((Except.error err : Except ε α) >>= f) = .error err := rfl

theorem encodeOperation_err_producer (m : List (String × PyVal)) (e : LogEntryPB)
    (info : List (String × PyVal))
    (hl : lookupKey m "operation" = some (.dict info))
    (hp : lookupKey info "producer" = Option.none) :
    encodeOperation m e = .error (.keyError "producer") := by
  simp [encodeOperation, hl, _log_operation_mapping_to_pb, hp, errBind]

theorem encodeOperation_err_id (m : List (String × PyVal)) (e : LogEntryPB)
    (info : List (String × PyVal)) (p : String)
    (hl : lookupKey m "operation" = some (.dict info))
    (hp : lookupKey info "producer" = some (.str p))
    (hi : lookupKey info "id" = Option.none) :
    encodeOperation m e = .error (.keyError "id") := by
  simp [encodeOperation, hl, _log_operation_mapping_to_pb, hp, hi, okBindOk, errBind]

theorem containsKey_of_mem {α : Type} :
    ∀ (fs : List (String × α)) (k : String) (v : α), (k, v) ∈ fs → containsKey fs k = true := by
  intro fs
  induction fs with
  | nil => intro k v hm; cases hm
  | cons p rest ih =>
    intro k v hm
    obtain ⟨k0, v0⟩ := p
    rcases List.mem_cons.mp hm with heq | hmem
    · cases heq
      simp [containsKey, lookupKey]
    · by_cases he : k0 = k
      · simp [containsKey, lookupKey, he]
      · simpa [containsKey, lookupKey, he] using ih k v hmem

theorem lookup_none_of_keysAmong (m : List (String × PyVal)) (allowed : List String) (k : String)
    (h : keysAmong m allowed = true) (hk : allowed.contains k = false) :
    lookupKey m k = Option.none := by
  induction m with
  | nil => rfl
  | cons p rest ih =>
    obtain ⟨k0, v0⟩ := p
    have h2 : allowed.contains k0 = true ∧ keysAmong rest allowed = true := by
      simpa [keysAmong, List.all_cons, Bool.and_eq_true] using h
    by_cases he : k0 = k
    · subst he
      rw [h2.1] at hk
      cases hk
    · simp [lookupKey, he, ih h2.2]

/-- The encoder on a mapping whose non-operation keys are well-formed: every
stage before the operation block succeeds and performs its pure update. -/
theorem encode_chain (m : List (String × PyVal)) (h : wfBase m = true) :
    _log_entry_mapping_to_pb m =
      encodeOperation m (applyHttp m (applyProto m (applyJson m (applyLabels m
        (applyTimestamp m (applySeverity m (applyResource m
          (applyTextPayload m (applyInsertId m (applyLogName m {})))))))))) := by
  have hw := by simpa [wfBase, Bool.and_eq_true, and_assoc] using h
  obtain ⟨hnd, hka, hLog, hIns, hTxt, hRes, hSev, hTs, hLab, hJson, hHttp, -⟩ := hw
  have hproto : lookupKey m "protoPayload" = Option.none :=
    lookup_none_of_keysAmong m entryKeys "protoPayload" hka (by rfl)
  simp only [_log_entry_mapping_to_pb,
    encodeLogName_char m hLog, okBindOk,
    encodeInsertId_char m hIns,
    encodeTextPayload_char m hTxt,
    encodeResource_char m hRes,
    encodeSeverity_char m hSev,
    encodeTimestamp_char m hTs,
    encodeLabels_char m hLab,
    encodeJsonPayload_char m hJson,
    encodeProtoPayload_char m hproto,
    encodeHttpRequest_char m hHttp]

/-- The encoder on a fully well-formed mapping produces exactly `pbOf`. -/
theorem encode_wfEntry (m : List (String × PyVal)) (h : wfEntryMapping m = true) :
    _log_entry_mapping_to_pb m = .ok (pbOf m) := by
  have hb : wfBase m = true ∧ shapeOperation (lookupKey m "operation") = true := by
    simpa [wfEntryMapping, Bool.and_eq_true] using h
  rw [encode_chain m hb.1, encodeOperation_char m hb.2]
  rfl

/-! ## The operation precondition (C9) -/

/-- C9 counterexample: the claim quantifies over every input mapping whose
operation submapping lacks producer or id and promises a KeyError; but an
earlier field can fail first.  Here the severity block raises ValueError
before the operation block is reached, so no KeyError is raised although the
operation submapping is empty. -/
theorem claim_C9_counterexample :
    lookupKey badSevOpIn "operation" = some (.dict []) ∧
    lookupKey ([] : List (String × PyVal)) "producer" = Option.none ∧
    _log_entry_mapping_to_pb badSevOpIn = .error (.valueError "unknown enum label: NO_SUCH_NAME") ∧
    _log_entry_mapping_to_pb badSevOpIn ≠ .error (.keyError "producer") ∧
    _log_entry_mapping_to_pb badSevOpIn ≠ .error (.keyError "id") := by
  have he : _log_entry_mapping_to_pb badSevOpIn =
      .error (.valueError "unknown enum label: NO_SUCH_NAME") := rfl
  refine ⟨rfl, rfl, he, ?_, ?_⟩ <;> rw [he] <;> simp

/-- C9 amended: on an input mapping whose other present keys are well-formed,
an operation submapping lacking producer raises KeyError on producer, and one
whose producer is a string but which lacks id raises KeyError on id, in both
cases before any message is returned; on arbitrary mappings an earlier
ill-formed field may raise its own (non-Key) error first. -/
theorem claim_C9_amended (m : List (String × PyVal)) (info : List (String × PyVal))
    (hb : wfBase m = true)
    (hl : lookupKey m "operation" = some (.dict info)) :
    (lookupKey info "producer" = Option.none →
      _log_entry_mapping_to_pb m = .error (.keyError "producer")) ∧
    (∀ p, lookupKey info "producer" = some (.str p) → lookupKey info "id" = Option.none →
      _log_entry_mapping_to_pb m = .error (.keyError "id")) := by
  constructor
  · intro hp
    rw [encode_chain m hb]
    exact encodeOperation_err_producer m _ info hl hp
  · intro p hp hi
    rw [encode_chain m hb]
    exact encodeOperation_err_id m _ info p hl hp hi

theorem claim_C9_witness :
    _log_entry_mapping_to_pb opNoProducerIn = .error (.keyError "producer") :=
  (claim_C9_amended opNoProducerIn [("first", PyVal.bool true)] rfl rfl).1 rfl

/-! ## More association-list lemmas for the round trip -/

theorem lookup_some_of_mem_nodup {α : Type} :
    ∀ (fs : List (String × α)) (k : String) (v : α),
      nodupKeys fs = true → (k, v) ∈ fs → lookupKey fs k = some v := by
  intro fs
  induction fs with
  | nil => intro k v _ hm; cases hm
  | cons p rest ih =>
    intro k v hn hm
    obtain ⟨k0, v0⟩ := p
    have hn2 : containsKey rest k0 = false ∧ nodupKeys rest = true := by
      simpa [nodupKeys, Bool.and_eq_true] using hn
    rcases List.mem_cons.mp hm with heq | hmem
    · cases heq
      simp [lookupKey]
    · have hne : k0 ≠ k := by
        intro he
        subst he
        have := containsKey_of_mem rest k0 v hmem
        rw [hn2.1] at this
        cases this
      simp [lookupKey, hne, ih k v hn2.2 hmem]

theorem mapInsert_notMem {α : Type} :
    ∀ (fs : List (String × α)) (k : String) (v : α), containsKey fs k = false →
      mapInsert fs k v = fs ++ [(k, v)] := by
  intro fs
  induction fs with
  | nil => intro k v _; rfl
  | cons p rest ih =>
    intro k v h
    obtain ⟨k0, v0⟩ := p
    by_cases he : k0 = k
    · subst he
      simp [containsKey, lookupKey] at h
    · have h2 : containsKey rest k = false := by
        simpa [containsKey, lookupKey, he] using h
      simp [mapInsert, he, ih k v h2]

theorem insertAll_fresh {α : Type} :
    ∀ (ps acc : List (String × α)), nodupKeys ps = true →
      (∀ p ∈ ps, containsKey acc p.1 = false) → insertAll acc ps = acc ++ ps := by
  intro ps
  induction ps with
  | nil => intro acc _ _; simp [insertAll]
  | cons p rest ih =>
    intro acc hn hd
    obtain ⟨k, v⟩ := p
    have hn2 : containsKey rest k = false ∧ nodupKeys rest = true := by
      simpa [nodupKeys, Bool.and_eq_true] using hn
    have hacc : containsKey acc k = false := hd (k, v) (List.mem_cons_self _ _)
    have step : insertAll acc ((k, v) :: rest) = insertAll (acc ++ [(k, v)]) rest := by
      simp [insertAll, mapInsert_notMem acc k v hacc]
    rw [step, ih (acc ++ [(k, v)]) hn2.2 ?_]
    · simp
    · intro q hq
      rw [containsKey_append]
      have hq1 : containsKey acc q.1 = false := hd q (List.mem_cons_of_mem _ hq)
      have hne : q.1 ≠ k := by
        intro he
        have hc := containsKey_of_mem rest q.1 q.2 (by simpa using hq)
        rw [he] at hc
        rw [hn2.1] at hc
        cases hc
      have hq2 : containsKey [(k, v)] q.1 = false := by
        simp [containsKey, lookupKey, Ne.symm hne]
      rw [hq1, hq2]
      rfl

theorem insertAll_nil {α : Type} (ps : List (String × α)) (hn : nodupKeys ps = true) :
    insertAll [] ps = ps := by
  have := insertAll_fresh ps [] hn (fun p _ => rfl)
  simpa using this

theorem lookupKey_mapVal {α β : Type} (g : α → β) :
    ∀ (fs : List (String × α)) (k : String),
      lookupKey (fs.map (fun p => (p.1, g p.2))) k = (lookupKey fs k).map g := by
  intro fs
  induction fs with
  | nil => intro k; rfl
  | cons p rest ih =>
    intro k
    obtain ⟨k0, v0⟩ := p
    by_cases he : k0 = k <;> simp [lookupKey, he, ih]

theorem containsKey_mapVal {α β : Type} (g : α → β) (fs : List (String × α)) (k : String) :
    containsKey (fs.map (fun p => (p.1, g p.2))) k = containsKey fs k := by
  rw [containsKey, containsKey, lookupKey_mapVal]
  cases lookupKey fs k <;> simp

theorem nodupKeys_mapVal {α β : Type} (g : α → β) :
    ∀ (fs : List (String × α)), nodupKeys (fs.map (fun p => (p.1, g p.2))) = nodupKeys fs := by
  intro fs
  induction fs with
  | nil => rfl
  | cons p rest ih =>
    obtain ⟨k0, v0⟩ := p
    simp [nodupKeys, containsKey_mapVal, ih]

theorem structValPairsOf_eq_map :
    ∀ (fs : List (String × PyVal)),
      structValPairsOf fs = fs.map (fun p => (p.1, structValOf p.2)) := by
  intro fs
  induction fs with
  | nil => simp [structValPairsOf]
  | cons p rest ih =>
    obtain ⟨k, v⟩ := p
    simp [structValPairsOf, ih]

theorem strPairsOf_eq_map :
    ∀ (fs : List (String × PyVal)), strPairsOf fs = fs.map (fun p => (p.1, strOfD p.2)) := by
  intro fs
  induction fs with
  | nil => rfl
  | cons p rest ih =>
    obtain ⟨k, v⟩ := p
    simp [strPairsOf, ih]

theorem strPairs_mapBack :
    ∀ (fs : List (String × PyVal)), fs.all (fun p => isStrVal p.2) = true →
      (strPairsOf fs).map (fun q => (q.1, PyVal.str q.2)) = fs := by
  intro fs
  induction fs with
  | nil => intro _; rfl
  | cons p rest ih =>
    intro h
    obtain ⟨k, v⟩ := p
    have h2 : isStrVal v = true ∧ rest.all (fun p => isStrVal p.2) = true := by
      simpa [List.all_cons, Bool.and_eq_true] using h
    cases v with
    | str s => simp [strPairsOf, strOfD, ih h2.2]
    | none => exact absurd h2.1 (by simp [isStrVal])
    | bool b => exact absurd h2.1 (by simp [isStrVal])
    | num x => exact absurd h2.1 (by simp [isStrVal])
    | dt a b => exact absurd h2.1 (by simp [isStrVal])
    | list vs => exact absurd h2.1 (by simp [isStrVal])
    | dict gs => exact absurd h2.1 (by simp [isStrVal])
    | msg w => exact absurd h2.1 (by simp [isStrVal])

theorem goodJsonPairs_of_str :
    ∀ (fs : List (String × PyVal)), fs.all (fun p => isStrVal p.2) = true →
      goodJsonPairs fs = true := by
  intro fs
  induction fs with
  | nil => simp [goodJsonPairs]
  | cons p rest ih =>
    intro h
    obtain ⟨k, v⟩ := p
    have h2 : isStrVal v = true ∧ rest.all (fun p => isStrVal p.2) = true := by
      simpa [List.all_cons, Bool.and_eq_true] using h
    cases v <;> simp_all [isStrVal, goodJsonPairs, goodJson, ih h2.2]

theorem goodJson_of_pairs_mem :
    ∀ (fs : List (String × PyVal)) (k : String) (v : PyVal),
      goodJsonPairs fs = true → (k, v) ∈ fs → goodJson v = true := by
  intro fs
  induction fs with
  | nil => intro k v _ hm; cases hm
  | cons p rest ih =>
    intro k v hg hm
    obtain ⟨k0, v0⟩ := p
    have h2 : goodJson v0 = true ∧ goodJsonPairs rest = true := by
      simpa [goodJsonPairs, Bool.and_eq_true] using hg
    rcases List.mem_cons.mp hm with heq | hmem
    · cases heq; exact h2.1
    · exact ih k v h2.2 hmem

/-! ## Python-equality lemmas -/

theorem pyEqFields_of :
    ∀ (fs gs : List (String × PyVal)),
      (∀ p ∈ fs, ∃ w, lookupKey gs p.1 = some w ∧ pyEq p.2 w = true) →
      pyEqFields fs gs = true := by
  intro fs gs
  induction fs with
  | nil => intro _; simp [pyEqFields]
  | cons p rest ih =>
    intro h
    obtain ⟨k, v⟩ := p
    obtain ⟨w, hw, hpe⟩ := h (k, v) (List.mem_cons_self _ _)
    simp [pyEqFields, hw, hpe, ih (fun q hq => h q (List.mem_cons_of_mem _ hq))]

theorem pyEq_dict_intro (fs gs : List (String × PyVal))
    (h1 : pyEqFields fs gs = true)
    (h2 : ∀ q ∈ gs, containsKey fs q.1 = true) :
    pyEq (.dict fs) (.dict gs) = true := by
  simp only [pyEq, h1, Bool.true_and, List.all_eq_true]
  intro q hq
  exact h2 q hq

theorem pyEq_refl_main : ∀ (n : Nat) (v : PyVal), sizeOf v ≤ n → goodJson v = true →
    pyEq v v = true := by
  intro n
  induction n with
  | zero =>
    intro v hv hg
    exfalso
    cases v <;> simp at hv
  | succ n ih =>
    intro v hv hg
    cases v with
    | str s => simp [pyEq]
    | bool b => simp [pyEq]
    | num x => simp [pyEq]
    | list vs =>
      have hbound : ∀ a ∈ vs, sizeOf a ≤ n := by
        intro a ha
        have h1 : sizeOf a < sizeOf vs := List.sizeOf_lt_of_mem ha
        simp at hv
        omega
      have hg2 : goodJsonList vs = true := by simpa [goodJson] using hg
      have hlist : ∀ ws : List PyVal, (∀ a ∈ ws, sizeOf a ≤ n) → goodJsonList ws = true →
          pyEqList ws ws = true := by
        intro ws
        induction ws with
        | nil => intro _ _; simp [pyEqList]
        | cons a rest ih2 =>
          intro hb hgw
          have hga : goodJson a = true ∧ goodJsonList rest = true := by
            simpa [goodJsonList, Bool.and_eq_true] using hgw
          simp [pyEqList, ih a (hb a (List.mem_cons_self a rest)) hga.1,
            ih2 (fun b hbm => hb b (List.mem_cons_of_mem a hbm)) hga.2]
      simp [pyEq, hlist vs hbound hg2]
    | dict fs =>
      have hbound : ∀ p ∈ fs, sizeOf p.2 ≤ n := by
        intro p hp
        have h1 : sizeOf p < sizeOf fs := List.sizeOf_lt_of_mem hp
        obtain ⟨k, a⟩ := p
        simp at hv h1 ⊢
        omega
      have hgd : nodupKeys fs = true ∧ goodJsonPairs fs = true := by
        simpa [goodJson, Bool.and_eq_true] using hg
      apply pyEq_dict_intro
      · apply pyEqFields_of
        intro p hp
        refine ⟨p.2, ?_, ?_⟩
        · exact lookup_some_of_mem_nodup fs p.1 p.2 hgd.1 (by simpa using hp)
        · exact ih p.2 (hbound p hp)
            (goodJson_of_pairs_mem fs p.1 p.2 hgd.2 (by simpa using hp))
      · intro q hq
        exact containsKey_of_mem fs q.1 q.2 (by simpa using hq)
    | none => simp [goodJson] at hg
    | dt a b => simp [goodJson] at hg
    | msg w => simp [goodJson] at hg

theorem pyEq_refl_good (v : PyVal) (h : goodJson v = true) : pyEq v v = true :=
  pyEq_refl_main (sizeOf v) v le_rfl h

theorem contains_of_presentStr (fs : List (String × PyVal)) (k : String)
    (h : presentStr fs k = true) : containsKey fs k = true := by
  rw [containsKey, presentStr_inv fs k h]
  rfl

theorem contains_of_presentNum (fs : List (String × PyVal)) (k : String)
    (h : presentNum fs k = true) : containsKey fs k = true := by
  rw [containsKey, presentNum_inv fs k h]
  rfl

theorem contains_of_presentBool (fs : List (String × PyVal)) (k : String)
    (h : presentBool fs k = true) : containsKey fs k = true := by
  rw [containsKey, presentBool_inv fs k h]
  rfl

theorem keysAmong_mem {allowed : List String} :
    ∀ (fs : List (String × PyVal)) (p : String × PyVal),
      keysAmong fs allowed = true → p ∈ fs → allowed.contains p.1 = true := by
  intro fs
  induction fs with
  | nil => intro p _ hm; cases hm
  | cons q rest ih =>
    intro p h hm
    have h2 : allowed.contains q.1 = true ∧ keysAmong rest allowed = true := by
      simpa [keysAmong, List.all_cons, Bool.and_eq_true] using h
    rcases List.mem_cons.mp hm with heq | hmem
    · subst heq; exact h2.1
    · exact ih p h2.2 hmem

/-- A httpRequest submapping carrying all nine subkeys with well-typed values
is Python-equal to the nine-key submapping the decoder rebuilds from the
encoded message. -/
theorem http_pyEq (info : List (String × PyVal))
    (hn : nodupKeys info = true) (hka : keysAmong info httpKeys = true)
    (h1 : presentStr info "requestMethod" = true) (h2 : presentStr info "requestUrl" = true)
    (h3 : presentNum info "status" = true) (h4 : presentStr info "referer" = true)
    (h5 : presentStr info "userAgent" = true) (h6 : presentBool info "cacheHit" = true)
    (h7 : presentNum info "requestSize" = true) (h8 : presentNum info "responseSize" = true)
    (h9 : presentStr info "remoteIp" = true) :
    pyEq (.dict info) (.dict (httpRequestMapping (httpOf info))) = true := by
  apply pyEq_dict_intro
  · apply pyEqFields_of
    intro p hp
    have hclook : lookupKey info p.1 = some p.2 :=
      lookup_some_of_mem_nodup info p.1 p.2 hn (by simpa using hp)
    have hkm : httpKeys.contains p.1 = true := keysAmong_mem info p hka hp
    have hdisj : p.1 = "requestMethod" ∨ p.1 = "requestUrl" ∨ p.1 = "status" ∨
        p.1 = "referer" ∨ p.1 = "userAgent" ∨ p.1 = "cacheHit" ∨ p.1 = "requestSize" ∨
        p.1 = "responseSize" ∨ p.1 = "remoteIp" := by
      simpa [httpKeys] using hkm
    rcases hdisj with h | h | h | h | h | h | h | h | h
    · refine ⟨PyVal.str (strAt info "requestMethod" ""), ?_, ?_⟩
      · rw [h]; simp [httpRequestMapping, httpOf, lookupKey]
      · rw [h] at hclook
        have hv := Option.some.inj (hclook.symm.trans (presentStr_inv info "requestMethod" h1))
        rw [hv]; simp [pyEq]
    · refine ⟨PyVal.str (strAt info "requestUrl" ""), ?_, ?_⟩
      · rw [h]; simp [httpRequestMapping, httpOf, lookupKey]
      · rw [h] at hclook
        have hv := Option.some.inj (hclook.symm.trans (presentStr_inv info "requestUrl" h2))
        rw [hv]; simp [pyEq]
    · refine ⟨PyVal.num (numAt info "status" 0), ?_, ?_⟩
      · rw [h]; simp [httpRequestMapping, httpOf, lookupKey]
      · rw [h] at hclook
        have hv := Option.some.inj (hclook.symm.trans (presentNum_inv info "status" h3))
        rw [hv]; simp [pyEq]
    · refine ⟨PyVal.str (strAt info "referer" ""), ?_, ?_⟩
      · rw [h]; simp [httpRequestMapping, httpOf, lookupKey]
      · rw [h] at hclook
        have hv := Option.some.inj (hclook.symm.trans (presentStr_inv info "referer" h4))
        rw [hv]; simp [pyEq]
    · refine ⟨PyVal.str (strAt info "userAgent" ""), ?_, ?_⟩
      · rw [h]; simp [httpRequestMapping, httpOf, lookupKey]
      · rw [h] at hclook
        have hv := Option.some.inj (hclook.symm.trans (presentStr_inv info "userAgent" h5))
        rw [hv]; simp [pyEq]
    · refine ⟨PyVal.bool (boolAt info "cacheHit" false), ?_, ?_⟩
      · rw [h]; simp [httpRequestMapping, httpOf, lookupKey]
      · rw [h] at hclook
        have hv := Option.some.inj (hclook.symm.trans (presentBool_inv info "cacheHit" h6))
        rw [hv]; simp [pyEq]
    · refine ⟨PyVal.num (numAt info "requestSize" 0), ?_, ?_⟩
      · rw [h]; simp [httpRequestMapping, httpOf, lookupKey]
      · rw [h] at hclook
        have hv := Option.some.inj (hclook.symm.trans (presentNum_inv info "requestSize" h7))
        rw [hv]; simp [pyEq]
    · refine ⟨PyVal.num (numAt info "responseSize" 0), ?_, ?_⟩
      · rw [h]; simp [httpRequestMapping, httpOf, lookupKey]
      · rw [h] at hclook
        have hv := Option.some.inj (hclook.symm.trans (presentNum_inv info "responseSize" h8))
        rw [hv]; simp [pyEq]
    · refine ⟨PyVal.str (strAt info "remoteIp" ""), ?_, ?_⟩
      · rw [h]; simp [httpRequestMapping, httpOf, lookupKey]
      · rw [h] at hclook
        have hv := Option.some.inj (hclook.symm.trans (presentStr_inv info "remoteIp" h9))
        rw [hv]; simp [pyEq]
  · intro q hq
    simp [httpRequestMapping] at hq
    rcases hq with h | h | h | h | h | h | h | h | h <;> subst h
    · exact contains_of_presentStr info "requestMethod" h1
    · exact contains_of_presentStr info "requestUrl" h2
    · exact contains_of_presentNum info "status" h3
    · exact contains_of_presentStr info "referer" h4
    · exact contains_of_presentStr info "userAgent" h5
    · exact contains_of_presentBool info "cacheHit" h6
    · exact contains_of_presentNum info "requestSize" h7
    · exact contains_of_presentNum info "responseSize" h8
    · exact contains_of_presentStr info "remoteIp" h9

/-- An operation submapping carrying all four subkeys with well-typed values
is Python-equal to the four-key submapping the decoder rebuilds. -/
theorem op_pyEq (info : List (String × PyVal))
    (hn : nodupKeys info = true) (hka : keysAmong info opKeys = true)
    (h1 : presentStr info "producer" = true) (h2 : presentStr info "id" = true)
    (h3 : presentBool info "first" = true) (h4 : presentBool info "last" = true) :
    pyEq (.dict info) (.dict (operationMapping (opOf info))) = true := by
  apply pyEq_dict_intro
  · apply pyEqFields_of
    intro p hp
    have hclook : lookupKey info p.1 = some p.2 :=
      lookup_some_of_mem_nodup info p.1 p.2 hn (by simpa using hp)
    have hkm : opKeys.contains p.1 = true := keysAmong_mem info p hka hp
    have hdisj : p.1 = "producer" ∨ p.1 = "id" ∨ p.1 = "first" ∨ p.1 = "last" := by
      simpa [opKeys] using hkm
    rcases hdisj with h | h | h | h
    · refine ⟨PyVal.str (strAt info "producer" ""), ?_, ?_⟩
      · rw [h]; simp [operationMapping, opOf, lookupKey]
      · rw [h] at hclook
        have hv := Option.some.inj (hclook.symm.trans (presentStr_inv info "producer" h1))
        rw [hv]; simp [pyEq]
    · refine ⟨PyVal.str (strAt info "id" ""), ?_, ?_⟩
      · rw [h]; simp [operationMapping, opOf, lookupKey]
      · rw [h] at hclook
        have hv := Option.some.inj (hclook.symm.trans (presentStr_inv info "id" h2))
        rw [hv]; simp [pyEq]
    · refine ⟨PyVal.bool (boolAt info "first" false), ?_, ?_⟩
      · rw [h]; simp [operationMapping, opOf, lookupKey]
      · rw [h] at hclook
        have hv := Option.some.inj (hclook.symm.trans (presentBool_inv info "first" h3))
        rw [hv]; simp [pyEq]
    · refine ⟨PyVal.bool (boolAt info "last" false), ?_, ?_⟩
      · rw [h]; simp [operationMapping, opOf, lookupKey]
      · rw [h] at hclook
        have hv := Option.some.inj (hclook.symm.trans (presentBool_inv info "last" h4))
        rw [hv]; simp [pyEq]
  · intro q hq
    simp [operationMapping] at hq
    rcases hq with h | h | h | h <;> subst h
    · exact contains_of_presentStr info "producer" h1
    · exact contains_of_presentStr info "id" h2
    · exact contains_of_presentBool info "first" h3
    · exact contains_of_presentBool info "last" h4

/-! ## Frame facts for the pure stages

Each stage only writes its own field. -/

theorem applyLogName_other (m : List (String × PyVal)) (e : LogEntryPB) :
    (applyLogName m e).insert_id = e.insert_id ∧ (applyLogName m e).resource = e.resource ∧
    (applyLogName m e).severity = e.severity ∧ (applyLogName m e).labels = e.labels ∧
    (applyLogName m e).payload = e.payload ∧ (applyLogName m e).http_request = e.http_request ∧
    (applyLogName m e).operation = e.operation := by
  cases hl : lookupKey m "logName" with
  | none => simp [applyLogName, hl]
  | some v => cases v <;> simp [applyLogName, hl]

theorem applyInsertId_other (m : List (String × PyVal)) (e : LogEntryPB) :
    (applyInsertId m e).log_name = e.log_name ∧ (applyInsertId m e).resource = e.resource ∧
    (applyInsertId m e).severity = e.severity ∧ (applyInsertId m e).labels = e.labels ∧
    (applyInsertId m e).payload = e.payload ∧ (applyInsertId m e).http_request = e.http_request ∧
    (applyInsertId m e).operation = e.operation := by
  cases hl : lookupKey m "insertId" with
  | none => simp [applyInsertId, hl]
  | some v => cases v <;> simp [applyInsertId, hl]

theorem applyTextPayload_other (m : List (String × PyVal)) (e : LogEntryPB) :
    (applyTextPayload m e).log_name = e.log_name ∧ (applyTextPayload m e).insert_id = e.insert_id ∧
    (applyTextPayload m e).resource = e.resource ∧ (applyTextPayload m e).severity = e.severity ∧
    (applyTextPayload m e).labels = e.labels ∧
    (applyTextPayload m e).http_request = e.http_request ∧
    (applyTextPayload m e).operation = e.operation := by
  cases hl : lookupKey m "textPayload" with
  | none => simp [applyTextPayload, hl]
  | some v => cases v <;> simp [applyTextPayload, hl]

theorem applyResource_other (m : List (String × PyVal)) (e : LogEntryPB) :
    (applyResource m e).log_name = e.log_name ∧ (applyResource m e).insert_id = e.insert_id ∧
    (applyResource m e).severity = e.severity ∧ (applyResource m e).labels = e.labels ∧
    (applyResource m e).payload = e.payload ∧ (applyResource m e).http_request = e.http_request ∧
    (applyResource m e).operation = e.operation := by
  cases hl : lookupKey m "resource" with
  | none => simp [applyResource, hl]
  | some v =>
    cases v <;> try simp [applyResource, hl]
    case dict res =>
      cases hr : lookupKey res "type" with
      | none => simp [applyResource, hl, hr]
      | some w => cases w <;> simp [applyResource, hl, hr]

theorem applySeverity_other (m : List (String × PyVal)) (e : LogEntryPB) :
    (applySeverity m e).log_name = e.log_name ∧ (applySeverity m e).insert_id = e.insert_id ∧
    (applySeverity m e).resource = e.resource ∧ (applySeverity m e).labels = e.labels ∧
    (applySeverity m e).payload = e.payload ∧ (applySeverity m e).http_request = e.http_request ∧
    (applySeverity m e).operation = e.operation := by
  cases hl : lookupKey m "severity" with
  | none => simp [applySeverity, hl]
  | some v => cases v <;> simp [applySeverity, hl]

theorem applyTimestamp_other (m : List (String × PyVal)) (e : LogEntryPB) :
    (applyTimestamp m e).log_name = e.log_name ∧ (applyTimestamp m e).insert_id = e.insert_id ∧
    (applyTimestamp m e).resource = e.resource ∧ (applyTimestamp m e).severity = e.severity ∧
    (applyTimestamp m e).labels = e.labels ∧ (applyTimestamp m e).payload = e.payload ∧
    (applyTimestamp m e).http_request = e.http_request ∧
    (applyTimestamp m e).operation = e.operation := by
  cases hl : lookupKey m "timestamp" with
  | none => simp [applyTimestamp, hl]
  | some v => cases v <;> simp [applyTimestamp, hl]

theorem applyLabels_other (m : List (String × PyVal)) (e : LogEntryPB) :
    (applyLabels m e).log_name = e.log_name ∧ (applyLabels m e).insert_id = e.insert_id ∧
    (applyLabels m e).resource = e.resource ∧ (applyLabels m e).severity = e.severity ∧
    (applyLabels m e).payload = e.payload ∧ (applyLabels m e).http_request = e.http_request ∧
    (applyLabels m e).operation = e.operation := by
  cases hl : lookupKey m "labels" with
  | none => simp [applyLabels, hl]
  | some v => cases v <;> simp [applyLabels, hl]

theorem applyJson_other (m : List (String × PyVal)) (e : LogEntryPB) :
    (applyJson m e).log_name = e.log_name ∧ (applyJson m e).insert_id = e.insert_id ∧
    (applyJson m e).resource = e.resource ∧ (applyJson m e).severity = e.severity ∧
    (applyJson m e).labels = e.labels ∧ (applyJson m e).http_request = e.http_request ∧
    (applyJson m e).operation = e.operation := by
  cases hl : lookupKey m "jsonPayload" with
  | none => simp [applyJson, hl]
  | some v =>
    cases v <;> try simp [applyJson, hl]
    case dict fs =>
      cases he : fs.isEmpty <;> simp [applyJson, hl, he]

theorem applyProto_other (m : List (String × PyVal)) (e : LogEntryPB) :
    (applyProto m e).log_name = e.log_name ∧ (applyProto m e).insert_id = e.insert_id ∧
    (applyProto m e).resource = e.resource ∧ (applyProto m e).severity = e.severity ∧
    (applyProto m e).labels = e.labels ∧ (applyProto m e).http_request = e.http_request ∧
    (applyProto m e).operation = e.operation := by
  cases hl : lookupKey m "protoPayload" with
  | none => simp [applyProto, hl]
  | some v => simp [applyProto, hl]

theorem applyHttp_other (m : List (String × PyVal)) (e : LogEntryPB) :
    (applyHttp m e).log_name = e.log_name ∧ (applyHttp m e).insert_id = e.insert_id ∧
    (applyHttp m e).resource = e.resource ∧ (applyHttp m e).severity = e.severity ∧
    (applyHttp m e).labels = e.labels ∧ (applyHttp m e).payload = e.payload ∧
    (applyHttp m e).operation = e.operation := by
  cases hl : lookupKey m "httpRequest" with
  | none => simp [applyHttp, hl]
  | some v => cases v <;> simp [applyHttp, hl]

theorem applyOperation_other (m : List (String × PyVal)) (e : LogEntryPB) :
    (applyOperation m e).log_name = e.log_name ∧ (applyOperation m e).insert_id = e.insert_id ∧
    (applyOperation m e).resource = e.resource ∧ (applyOperation m e).severity = e.severity ∧
    (applyOperation m e).labels = e.labels ∧ (applyOperation m e).payload = e.payload ∧
    (applyOperation m e).http_request = e.http_request := by
  cases hl : lookupKey m "operation" with
  | none => simp [applyOperation, hl]
  | some v => cases v <;> simp [applyOperation, hl]

/-! ## Projections of the encoded message -/

theorem pbOf_log_name (m : List (String × PyVal)) (s : String)
    (hl : lookupKey m "logName" = some (.str s)) : (pbOf m).log_name = s := by
  unfold pbOf
  rw [(applyOperation_other m _).1, (applyHttp_other m _).1, (applyProto_other m _).1,
    (applyJson_other m _).1, (applyLabels_other m _).1, (applyTimestamp_other m _).1,
    (applySeverity_other m _).1, (applyResource_other m _).1, (applyTextPayload_other m _).1,
    (applyInsertId_other m _).1]
  simp [applyLogName, hl]

theorem pbOf_insert_id (m : List (String × PyVal)) (s : String)
    (hl : lookupKey m "insertId" = some (.str s)) : (pbOf m).insert_id = s := by
  unfold pbOf
  rw [(applyOperation_other m _).2.1, (applyHttp_other m _).2.1, (applyProto_other m _).2.1,
    (applyJson_other m _).2.1, (applyLabels_other m _).2.1, (applyTimestamp_other m _).2.1,
    (applySeverity_other m _).2.1, (applyResource_other m _).2.1, (applyTextPayload_other m _).2.1]
  simp [applyInsertId, hl]

theorem pbOf_severity_str (m : List (String × PyVal)) (s : String) (code : Int)
    (hl : lookupKey m "severity" = some (.str s)) (hv : logSeverityValue s = .ok code) :
    (pbOf m).severity = code := by
  unfold pbOf
  rw [(applyOperation_other m _).2.2.2.1, (applyHttp_other m _).2.2.2.1,
    (applyProto_other m _).2.2.2.1, (applyJson_other m _).2.2.2.1,
    (applyLabels_other m _).2.2.2.1, (applyTimestamp_other m _).2.2.2.1]
  simp [applySeverity, hl, hv, excValue]

theorem pbOf_severity_none (m : List (String × PyVal))
    (hl : lookupKey m "severity" = Option.none) : (pbOf m).severity = 0 := by
  unfold pbOf
  rw [(applyOperation_other m _).2.2.2.1, (applyHttp_other m _).2.2.2.1,
    (applyProto_other m _).2.2.2.1, (applyJson_other m _).2.2.2.1,
    (applyLabels_other m _).2.2.2.1, (applyTimestamp_other m _).2.2.2.1]
  simp only [applySeverity, hl]
  rw [(applyResource_other m _).2.2.1, (applyTextPayload_other m _).2.2.2.1,
    (applyInsertId_other m _).2.2.1, (applyLogName_other m _).2.2.1]

theorem pbOf_resource (m : List (String × PyVal)) (t : String)
    (hl : lookupKey m "resource" = some (.dict [("type", .str t)])) :
    (pbOf m).resource = { type := t, labels := [] } := by
  unfold pbOf
  rw [(applyOperation_other m _).2.2.1, (applyHttp_other m _).2.2.1,
    (applyProto_other m _).2.2.1, (applyJson_other m _).2.2.1,
    (applyLabels_other m _).2.2.1, (applyTimestamp_other m _).2.2.1,
    (applySeverity_other m _).2.2.1]
  simp only [applyResource, hl, lookupKey]
  rw [(applyTextPayload_other m _).2.2.1, (applyInsertId_other m _).2.1,
    (applyLogName_other m _).2.1]
  rfl

theorem pbOf_labels (m : List (String × PyVal)) (fs : List (String × PyVal))
    (hl : lookupKey m "labels" = some (.dict fs)) (hnd : nodupKeys fs = true) :
    (pbOf m).labels = strPairsOf fs := by
  unfold pbOf
  rw [(applyOperation_other m _).2.2.2.2.1, (applyHttp_other m _).2.2.2.2.1,
    (applyProto_other m _).2.2.2.2.1, (applyJson_other m _).2.2.2.2.1]
  simp only [applyLabels, hl]
  rw [(applyTimestamp_other m _).2.2.2.2.1, (applySeverity_other m _).2.2.2.1,
    (applyResource_other m _).2.2.2.1, (applyTextPayload_other m _).2.2.2.2.1,
    (applyInsertId_other m _).2.2.2.1, (applyLogName_other m _).2.2.2.1]
  have hnd2 : nodupKeys (strPairsOf fs) = true := by
    rw [strPairsOf_eq_map, nodupKeys_mapVal]
    exact hnd
  have : insertAll (({} : LogEntryPB).labels) (strPairsOf fs) = strPairsOf fs :=
    insertAll_nil (strPairsOf fs) hnd2
  simpa using this

theorem pbOf_payload_text (m : List (String × PyVal)) (s : String)
    (htxt : lookupKey m "textPayload" = some (.str s))
    (hjson : lookupKey m "jsonPayload" = Option.none)
    (hproto : lookupKey m "protoPayload" = Option.none) :
    (pbOf m).payload = .text s := by
  unfold pbOf
  rw [(applyOperation_other m _).2.2.2.2.2.1, (applyHttp_other m _).2.2.2.2.2.1]
  simp only [applyProto, hproto, applyJson, hjson]
  rw [(applyLabels_other m _).2.2.2.2.1, (applyTimestamp_other m _).2.2.2.2.2.1,
    (applySeverity_other m _).2.2.2.2.1, (applyResource_other m _).2.2.2.2.1]
  simp [applyTextPayload, htxt]

theorem pbOf_payload_json (m : List (String × PyVal)) (fs : List (String × PyVal))
    (htxt : lookupKey m "textPayload" = Option.none)
    (hjson : lookupKey m "jsonPayload" = some (.dict fs))
    (hproto : lookupKey m "protoPayload" = Option.none)
    (hempty : fs.isEmpty = false) (hnd : nodupKeys fs = true) :
    (pbOf m).payload = .json (structValPairsOf fs) := by
  unfold pbOf
  rw [(applyOperation_other m _).2.2.2.2.2.1, (applyHttp_other m _).2.2.2.2.2.1]
  simp only [applyProto, hproto, applyJson, hjson, hempty, Bool.false_eq_true, if_false]
  rw [(applyLabels_other m _).2.2.2.2.1, (applyTimestamp_other m _).2.2.2.2.2.1,
    (applySeverity_other m _).2.2.2.2.1, (applyResource_other m _).2.2.2.2.1]
  simp only [applyTextPayload, htxt]
  rw [(applyInsertId_other m _).2.2.2.2.1, (applyLogName_other m _).2.2.2.2.1]
  have hnd2 : nodupKeys (structValPairsOf fs) = true := by
    rw [structValPairsOf_eq_map, nodupKeys_mapVal]
    exact hnd
  have : insertAll ([] : List (String × ValuePB)) (structValPairsOf fs) = structValPairsOf fs :=
    insertAll_nil (structValPairsOf fs) hnd2
  simp [PayloadPB.currentJson, this]

theorem pbOf_payload_unset (m : List (String × PyVal))
    (htxt : lookupKey m "textPayload" = Option.none)
    (hjson : lookupKey m "jsonPayload" = Option.none)
    (hproto : lookupKey m "protoPayload" = Option.none) :
    (pbOf m).payload = .unset := by
  unfold pbOf
  rw [(applyOperation_other m _).2.2.2.2.2.1, (applyHttp_other m _).2.2.2.2.2.1]
  simp only [applyProto, hproto, applyJson, hjson]
  rw [(applyLabels_other m _).2.2.2.2.1, (applyTimestamp_other m _).2.2.2.2.2.1,
    (applySeverity_other m _).2.2.2.2.1, (applyResource_other m _).2.2.2.2.1]
  simp only [applyTextPayload, htxt]
  rw [(applyInsertId_other m _).2.2.2.2.1, (applyLogName_other m _).2.2.2.2.1]

theorem pbOf_http_some (m : List (String × PyVal)) (info : List (String × PyVal))
    (hl : lookupKey m "httpRequest" = some (.dict info)) :
    (pbOf m).http_request = some (httpOf info) := by
  unfold pbOf
  rw [(applyOperation_other m _).2.2.2.2.2.2]
  simp [applyHttp, hl]

theorem pbOf_operation_some (m : List (String × PyVal)) (info : List (String × PyVal))
    (hl : lookupKey m "operation" = some (.dict info)) :
    (pbOf m).operation = some (opOf info) := by
  unfold pbOf
  simp [applyOperation, hl]

/-! ## Decoder computations for the round trip -/

theorem severityName_severityValue (s : String) (c : Int) (h : logSeverityValue s = .ok c) :
    logSeverityName c = .ok s := by
  unfold logSeverityValue at h
  split at h <;> simp_all <;> subst h <;> rfl

theorem lookup_none_of_not_contains {α : Type} (fs : List (String × α)) (k : String)
    (h : containsKey fs k = false) : lookupKey fs k = Option.none := by
  rw [containsKey] at h
  cases hl : lookupKey fs k with
  | none => rfl
  | some v => rw [hl] at h; simp at h

theorem wfBase_split (m : List (String × PyVal)) (h : wfBase m = true) :
    nodupKeys m = true ∧ keysAmong m entryKeys = true ∧
    isStrShape (lookupKey m "logName") = true ∧ isStrShape (lookupKey m "insertId") = true ∧
    isStrShape (lookupKey m "textPayload") = true ∧
    shapeResource (lookupKey m "resource") = true ∧ shapeSeverity (lookupKey m "severity") = true ∧
    shapeTimestamp (lookupKey m "timestamp") = true ∧ shapeLabels (lookupKey m "labels") = true ∧
    shapeJson (lookupKey m "jsonPayload") = true ∧ shapeHttp (lookupKey m "httpRequest") = true ∧
    (containsKey m "textPayload" = false ∨ containsKey m "jsonPayload" = false) := by
  unfold wfBase at h
  simp only [Bool.and_eq_true, and_assoc, Bool.not_eq_true', Bool.and_eq_false_iff] at h
  exact h

theorem decode_unset (pb : LogEntryPB) (sname : String)
    (hs : logSeverityName pb.severity = .ok sname) (hp : pb.payload = .unset) :
    _log_entry_pb_to_mapping pb = .ok (decodeBase pb sname ++ decodeTail pb) := by
  simp [_log_entry_pb_to_mapping, hs, okBindOk, hp, okBind, pureOk, decodeBase, decodeTail]

theorem decode_text (pb : LogEntryPB) (sname s : String)
    (hs : logSeverityName pb.severity = .ok sname) (hp : pb.payload = .text s) :
    _log_entry_pb_to_mapping pb =
      .ok (decodeBase pb sname ++ [("textPayload", PyVal.str s)] ++ decodeTail pb) := by
  simp [_log_entry_pb_to_mapping, hs, okBindOk, hp, okBind, pureOk, decodeBase, decodeTail]

theorem decode_json (pb : LogEntryPB) (sname : String) (fs : List (String × ValuePB))
    (dec : List (String × PyVal))
    (hs : logSeverityName pb.severity = .ok sname) (hp : pb.payload = .json fs)
    (hdec : _struct_pb_to_mapping fs = .ok dec) :
    _log_entry_pb_to_mapping pb =
      .ok (decodeBase pb sname ++ [("jsonPayload", PyVal.dict dec)] ++ decodeTail pb) := by
  simp [_log_entry_pb_to_mapping, hs, okBindOk, hp, hdec, okBind, pureOk, decodeBase, decodeTail]

/-! ## The round-trip claim (C1) -/

/-- C1 amended: on a well-formed input mapping (keys drawn from the supported
set, severity a symbolic name, resource of the form type-only, labels a
string map, jsonPayload a nonempty tree of strings, bools and numbers,
httpRequest carrying all nine subkeys, operation carrying all four subkeys,
at most one payload variant), encoding to a LogEntry message and decoding back
yields a mapping that is Python-equal to the input at every key present in
the input other than timestamp (which decodes to its RFC 3339 rendering). -/
theorem claim_C1_amended (m : List (String × PyVal)) (h : wfEntryMapping m = true) :
    ∃ pb out, _log_entry_mapping_to_pb m = .ok pb ∧ _log_entry_pb_to_mapping pb = .ok out ∧
      rtAt m out "logName" ∧ rtAt m out "resource" ∧ rtAt m out "severity" ∧
      rtAt m out "insertId" ∧ rtAt m out "labels" ∧ rtAt m out "textPayload" ∧
      rtAt m out "jsonPayload" ∧ rtAt m out "httpRequest" ∧ rtAt m out "operation" := by
  have hw : wfBase m = true ∧ shapeOperation (lookupKey m "operation") = true := by
    simpa [wfEntryMapping, Bool.and_eq_true] using h
  obtain ⟨hnd, hka, hLog, hIns, hTxt, hRes, hSev, hTs, hLab, hJson, hHttp, hconf⟩ :=
    wfBase_split m hw.1
  have hOp := hw.2
  have hproto : lookupKey m "protoPayload" = Option.none :=
    lookup_none_of_keysAmong m entryKeys "protoPayload" hka (by rfl)
  have henc : _log_entry_mapping_to_pb m = .ok (pbOf m) := encode_wfEntry m h
  have hsev2 : ∃ sname, logSeverityName (pbOf m).severity = .ok sname ∧
      (∀ s, lookupKey m "severity" = some (.str s) → sname = s) := by
    cases hsl : lookupKey m "severity" with
    | none =>
      refine ⟨"DEFAULT", ?_, ?_⟩
      · rw [pbOf_severity_none m hsl]; rfl
      · intro s hs2; cases hs2
    | some v =>
      rw [hsl] at hSev
      cases v <;> try simp [shapeSeverity] at hSev
      case str s =>
        cases hv : logSeverityValue s with
        | error err => simp [shapeSeverity, hv, excOk] at hSev
        | ok code =>
          refine ⟨s, ?_, ?_⟩
          · rw [pbOf_severity_str m s code hsl hv]
            exact severityName_severityValue s code hv
          · intro s2 hs2
            cases hs2
            rfl
  obtain ⟨sname, hsname, hsname_eq⟩ := hsev2
  have hRTlog : ∀ out, lookupKey out "logName" = some (PyVal.str (pbOf m).log_name) →
      rtAt m out "logName" := by
    intro out hlk v hv
    rw [hv] at hLog
    cases v <;> try simp [isStrShape] at hLog
    case str s =>
      refine ⟨PyVal.str s, ?_, by simp [pyEq]⟩
      rw [hlk, pbOf_log_name m s hv]
  have hRTins : ∀ out, lookupKey out "insertId" = some (PyVal.str (pbOf m).insert_id) →
      rtAt m out "insertId" := by
    intro out hlk v hv
    rw [hv] at hIns
    cases v <;> try simp [isStrShape] at hIns
    case str s =>
      refine ⟨PyVal.str s, ?_, by simp [pyEq]⟩
      rw [hlk, pbOf_insert_id m s hv]
  have hRTsev : ∀ out, lookupKey out "severity" = some (PyVal.str sname) →
      rtAt m out "severity" := by
    intro out hlk v hv
    rw [hv] at hSev
    cases v <;> try simp [shapeSeverity] at hSev
    case str s =>
      refine ⟨PyVal.str sname, hlk, ?_⟩
      rw [hsname_eq s hv]
      simp [pyEq]
  have hRTres : ∀ out, lookupKey out "resource" =
      some (PyVal.dict (_mon_resource_pb_to_mapping (pbOf m).resource)) →
      rtAt m out "resource" := by
    intro out hlk v hv
    rw [hv] at hRes
    cases v <;> try simp [shapeResource] at hRes
    case dict res =>
      cases res with
      | nil => simp [shapeResource] at hRes
      | cons p rest =>
        obtain ⟨k, v2⟩ := p
        cases rest with
        | cons q qrest => cases v2 <;> simp [shapeResource] at hRes
        | nil =>
          cases v2 <;> try simp [shapeResource] at hRes
          case str t =>
            have hk : k = "type" := by simpa [shapeResource] using hRes
            subst hk
            refine ⟨PyVal.dict (_mon_resource_pb_to_mapping (pbOf m).resource), hlk, ?_⟩
            rw [pbOf_resource m t hv]
            simp [_mon_resource_pb_to_mapping, pyEq, pyEqFields, lookupKey, containsKey]
  have hRTlabels : ∀ out, lookupKey out "labels" =
      some (PyVal.dict ((pbOf m).labels.map (fun p => (p.1, PyVal.str p.2)))) →
      rtAt m out "labels" := by
    intro out hlk v hv
    rw [hv] at hLab
    cases v <;> try simp [shapeLabels] at hLab
    case dict fs =>
      have h2 : nodupKeys fs = true ∧ fs.all (fun p => isStrVal p.2) = true := by
        simpa [shapeLabels, Bool.and_eq_true] using hLab
      refine ⟨PyVal.dict ((pbOf m).labels.map (fun p => (p.1, PyVal.str p.2))), hlk, ?_⟩
      rw [pbOf_labels m fs hv h2.1, strPairs_mapBack fs h2.2]
      exact pyEq_refl_good (.dict fs) (by simp [goodJson, h2.1, goodJsonPairs_of_str fs h2.2])
  have hRThttp : ∀ out, lookupKey out "httpRequest" =
      some (PyVal.dict (httpRequestMapping ((pbOf m).http_request.getD {}))) →
      rtAt m out "httpRequest" := by
    intro out hlk v hv
    rw [hv] at hHttp
    cases v <;> try simp [shapeHttp] at hHttp
    case dict info =>
      have hf : nodupKeys info = true ∧ keysAmong info httpKeys = true ∧
          presentStr info "requestMethod" = true ∧ presentStr info "requestUrl" = true ∧
          presentNum info "status" = true ∧ presentStr info "referer" = true ∧
          presentStr info "userAgent" = true ∧ presentBool info "cacheHit" = true ∧
          presentNum info "requestSize" = true ∧ presentNum info "responseSize" = true ∧
          presentStr info "remoteIp" = true := by
        simpa [shapeHttp, Bool.and_eq_true, and_assoc] using hHttp
      obtain ⟨f0, fk, f1, f2, f3, f4, f5, f6, f7, f8, f9⟩ := hf
      refine ⟨PyVal.dict (httpRequestMapping ((pbOf m).http_request.getD {})), hlk, ?_⟩
      rw [pbOf_http_some m info hv]
      simpa using http_pyEq info f0 fk f1 f2 f3 f4 f5 f6 f7 f8 f9
  have hRTop : ∀ out, lookupKey out "operation" =
      some (PyVal.dict (operationMapping ((pbOf m).operation.getD {}))) →
      rtAt m out "operation" := by
    intro out hlk v hv
    rw [hv] at hOp
    cases v <;> try simp [shapeOperation] at hOp
    case dict info =>
      have hf : nodupKeys info = true ∧ keysAmong info opKeys = true ∧
          presentStr info "producer" = true ∧ presentStr info "id" = true ∧
          presentBool info "first" = true ∧ presentBool info "last" = true := by
        simpa [shapeOperation, Bool.and_eq_true, and_assoc] using hOp
      obtain ⟨f0, fk, f1, f2, f3, f4⟩ := hf
      refine ⟨PyVal.dict (operationMapping ((pbOf m).operation.getD {})), hlk, ?_⟩
      rw [pbOf_operation_some m info hv]
      simpa using op_pyEq info f0 fk f1 f2 f3 f4
  cases htxt : lookupKey m "textPayload" with
  | some tv =>
    rw [htxt] at hTxt
    cases tv <;> try simp [isStrShape] at hTxt
    case str s =>
      have hct : containsKey m "textPayload" = true := by rw [containsKey, htxt]; rfl
      have hjs : lookupKey m "jsonPayload" = Option.none := by
        rcases hconf with hc | hc
        · rw [hct] at hc; cases hc
        · exact lookup_none_of_not_contains m "jsonPayload" hc
      have hpay := pbOf_payload_text m s htxt hjs hproto
      refine ⟨pbOf m,
        decodeBase (pbOf m) sname ++ [("textPayload", PyVal.str s)] ++ decodeTail (pbOf m),
        henc, decode_text (pbOf m) sname s hsname hpay, ?_, ?_, ?_, ?_, ?_, ?_, ?_, ?_, ?_⟩
      · exact hRTlog _ (by simp [decodeBase, decodeTail, lookupKey_append, lookupKey])
      · exact hRTres _ (by simp [decodeBase, decodeTail, lookupKey_append, lookupKey])
      · exact hRTsev _ (by simp [decodeBase, decodeTail, lookupKey_append, lookupKey])
      · exact hRTins _ (by simp [decodeBase, decodeTail, lookupKey_append, lookupKey])
      · exact hRTlabels _ (by simp [decodeBase, decodeTail, lookupKey_append, lookupKey])
      · intro v hv
        rw [htxt] at hv
        cases hv
        refine ⟨PyVal.str s, ?_, by simp [pyEq]⟩
        simp [decodeBase, decodeTail, lookupKey_append, lookupKey]
      · intro v hv
        rw [hjs] at hv
        cases hv
      · exact hRThttp _ (by simp [decodeBase, decodeTail, lookupKey_append, lookupKey])
      · exact hRTop _ (by simp [decodeBase, decodeTail, lookupKey_append, lookupKey])
  | none =>
    cases hjson : lookupKey m "jsonPayload" with
    | some jv =>
      rw [hjson] at hJson
      cases jv <;> try simp [shapeJson] at hJson
      case dict fs =>
        have h2 : fs.isEmpty = false ∧ nodupKeys fs = true ∧ goodJsonPairs fs = true := by
          simpa [shapeJson, Bool.and_eq_true, and_assoc] using hJson
        have hpay := pbOf_payload_json m fs htxt hjson hproto h2.1 h2.2.1
        have hdec : _struct_pb_to_mapping (structValPairsOf fs) = .ok fs :=
          structFields_rt fs h2.2.2
        refine ⟨pbOf m,
          decodeBase (pbOf m) sname ++ [("jsonPayload", PyVal.dict fs)] ++ decodeTail (pbOf m),
          henc, decode_json (pbOf m) sname (structValPairsOf fs) fs hsname hpay hdec,
          ?_, ?_, ?_, ?_, ?_, ?_, ?_, ?_, ?_⟩
        · exact hRTlog _ (by simp [decodeBase, decodeTail, lookupKey_append, lookupKey])
        · exact hRTres _ (by simp [decodeBase, decodeTail, lookupKey_append, lookupKey])
        · exact hRTsev _ (by simp [decodeBase, decodeTail, lookupKey_append, lookupKey])
        · exact hRTins _ (by simp [decodeBase, decodeTail, lookupKey_append, lookupKey])
        · exact hRTlabels _ (by simp [decodeBase, decodeTail, lookupKey_append, lookupKey])
        · intro v hv
          rw [htxt] at hv
          cases hv
        · intro v hv
          rw [hjson] at hv
          cases hv
          refine ⟨PyVal.dict fs, ?_, ?_⟩
          · simp [decodeBase, decodeTail, lookupKey_append, lookupKey]
          · exact pyEq_refl_good (.dict fs) (by simp [goodJson, h2.2.1, h2.2.2])
        · exact hRThttp _ (by simp [decodeBase, decodeTail, lookupKey_append, lookupKey])
        · exact hRTop _ (by simp [decodeBase, decodeTail, lookupKey_append, lookupKey])
    | none =>
      have hpay := pbOf_payload_unset m htxt hjson hproto
      refine ⟨pbOf m, decodeBase (pbOf m) sname ++ decodeTail (pbOf m),
        henc, decode_unset (pbOf m) sname hsname hpay, ?_, ?_, ?_, ?_, ?_, ?_, ?_, ?_, ?_⟩
      · exact hRTlog _ (by simp [decodeBase, decodeTail, lookupKey_append, lookupKey])
      · exact hRTres _ (by simp [decodeBase, decodeTail, lookupKey_append, lookupKey])
      · exact hRTsev _ (by simp [decodeBase, decodeTail, lookupKey_append, lookupKey])
      · exact hRTins _ (by simp [decodeBase, decodeTail, lookupKey_append, lookupKey])
      · exact hRTlabels _ (by simp [decodeBase, decodeTail, lookupKey_append, lookupKey])
      · intro v hv
        rw [htxt] at hv
        cases hv
      · intro v hv
        rw [hjson] at hv
        cases hv
      · exact hRThttp _ (by simp [decodeBase, decodeTail, lookupKey_append, lookupKey])
      · exact hRTop _ (by simp [decodeBase, decodeTail, lookupKey_append, lookupKey])

/-- C1 counterexample: an input whose operation submapping carries only the
two mandatory subkeys round-trips to a four-key submapping completed with the
proto defaults for first and last, so the value at the key operation is not
equal to the original (the key sets differ), refuting the claim as stated. -/
theorem claim_C1_counterexample :
    _log_entry_mapping_to_pb opOnlyIn = .ok opOnlyPb ∧
    _log_entry_pb_to_mapping opOnlyPb = .ok opOnlyDecoded ∧
    lookupKey opOnlyIn "operation" =
      some (.dict [("producer", .str "worker"), ("id", .str "abc123")]) ∧
    lookupKey opOnlyDecoded "operation" = some opOnlyOutOperation ∧
    lookupKey [("producer", PyVal.str "worker"), ("id", PyVal.str "abc123")] "first" =
      Option.none ∧
    pyEq (.dict [("producer", .str "worker"), ("id", .str "abc123")]) opOnlyOutOperation =
      false := by
  refine ⟨rfl, rfl, rfl, rfl, rfl, ?_⟩
  simp [opOnlyOutOperation, pyEq, pyEqFields, lookupKey, containsKey]

theorem claim_C1_witness :
    wfEntryMapping rtExampleIn = true ∧
    (∃ pb out, _log_entry_mapping_to_pb rtExampleIn = .ok pb ∧
      _log_entry_pb_to_mapping pb = .ok out ∧
      rtAt rtExampleIn out "logName" ∧ rtAt rtExampleIn out "resource" ∧
      rtAt rtExampleIn out "severity" ∧ rtAt rtExampleIn out "insertId" ∧
      rtAt rtExampleIn out "labels" ∧ rtAt rtExampleIn out "textPayload" ∧
      rtAt rtExampleIn out "jsonPayload" ∧ rtAt rtExampleIn out "httpRequest" ∧
      rtAt rtExampleIn out "operation") :=
  ⟨rfl, claim_C1_amended rtExampleIn rfl⟩
